import Mathlib

/-!
# Verification of the insurance voice-agent core

A shallow embedding of the slot-filling / premium-quoting core of the
repository (the Express server, together with src/server/premium.js), with
theorems settling the specification claims about it.

Conventions of the embedding:
* JavaScript strings are modelled as `List Char` (`Str`).  String-returning
  and string-consuming library operations (toLowerCase, includes, trim,
  split, regular-expression matching) are implemented directly on
  `List Char`, following the exact semantics the source relies on.  The
  working alphabet of the program is ASCII plus the Slovenian letters
  č š ž (and their capitals); Unicode NFKC normalisation is the identity
  on this alphabet and is modelled as such.
* JavaScript word boundaries and the word class (regex `\b` / `\w`) use the
  ASCII word-character class even under the u flag; the embedding mirrors
  this with `isWordA`.  Regex matching is leftmost-match with backtracking,
  implemented by specialised scanners per pattern of the source.
* JavaScript numbers that only ever hold small integers are modelled as
  `Nat`; the premium calculator's arithmetic is modelled over `ℚ` with
  decimal literals taken at their exact decimal value, and the rounding
  `Math.round x` as `⌊x + 1/2⌋` (JS rounds half-up).  Non-finite numbers
  (NaN, plus/minus infinity) are modelled by the `JSNum` type where the
  calculator's finiteness checks need them.
* Fallible code returns `Except`/`Option`; the HTTP turn handler is a pure
  state-transition function, with the external collaborators (speech-to-
  text, the LLM answerer, text-to-speech, document retrieval) modelled as
  inputs: their output text / document ids and a success flag per call.
-/

namespace AgentCore

/-- JavaScript strings, modelled as lists of characters. -/
abbrev Str := List Char

/-! ## Character classes and elementary string operations -/

/-- ASCII word character: the class that JavaScript uses for word
boundaries and for the word class in regular expressions. -/
def isWordA (c : Char) : Bool :=
  (('a' ≤ c && c ≤ 'z') || ('A' ≤ c && c ≤ 'Z') || c.isDigit || c = '_')

/-- Letters of the program's working alphabet: the Unicode letter class
restricted to ASCII letters and the Slovenian letters č š ž / Č Š Ž. -/
def jsIsLetter (c : Char) : Bool :=
  (('a' ≤ c && c ≤ 'z') || ('A' ≤ c && c ≤ 'Z') ||
   c = 'č' || c = 'š' || c = 'ž' || c = 'Č' || c = 'Š' || c = 'Ž')

/-- Whitespace, restricted to the characters that occur in the inputs. -/
def isWs (c : Char) : Bool := c = ' ' || c = '\t' || c = '\n' || c = '\r'

/-- Lowercasing of one character, on the working alphabet. -/
def jsLowerChar (c : Char) : Char :=
  if 'A' ≤ c && c ≤ 'Z' then Char.ofNat (c.toNat + 32)
  else if c = 'Č' then 'č' else if c = 'Š' then 'š' else if c = 'Ž' then 'ž'
  else c

/-- Lowercasing of a string (the toLowerCase method). -/
def jsLower (s : Str) : Str := s.map jsLowerChar

/-- Drop a literal from the front of a string: `dropLit pat s = some r`
exactly when `s = pat ++ r`. -/
def dropLit : Str → Str → Option Str
  | [], s => some s
  | _ :: _, [] => none
  | c :: p, d :: s => if c = d then dropLit p s else none

/-- Case-insensitive (working alphabet) variant of `dropLit`, for the
regular expressions of the source carrying the i flag. -/
def dropLitCI : Str → Str → Option Str
  | [], s => some s
  | _ :: _, [] => none
  | c :: p, d :: s => if jsLowerChar c = jsLowerChar d then dropLitCI p s else none

/-- Whether a string starts with the given literal. -/
def startsWithStr (s p : Str) : Bool := (dropLit p s).isSome

/-- Substring containment (the includes method). -/
def containsStr : Str → Str → Bool
  | [], p => p.isEmpty
  | c :: rest, p => (dropLit p (c :: rest)).isSome || containsStr rest p

/-- Trimming of leading and trailing whitespace (the trim method). -/
def strTrim (s : Str) : Str := (s.dropWhile isWs).reverse.dropWhile isWs |>.reverse

/-- Split on whitespace, dropping empty pieces: the source's composite
idiom of splitting on spaces and filtering out falsy pieces. -/
def splitWs (s : Str) : List Str :=
  (s.foldr
    (fun c acc =>
      if isWs c then [] :: acc
      else
        match acc with
        | [] => [[c]]
        | w :: ws => (c :: w) :: ws)
    []).filter (fun w => !w.isEmpty)

/-- Join words with single spaces (the join method with a space). -/
def joinSp (ws : List Str) : Str := (ws.intersperse [' ']).flatten

/-- Collapsing of whitespace runs to single spaces followed by a trim. -/
def collapseWs (s : Str) : Str := joinSp (splitWs s)

/-- Numeric value of a run of decimal digit characters. -/
def digitsToNat (ds : Str) : Nat :=
  ds.foldl (fun n c => n * 10 + (c.toNat - ( '0' ).toNat)) 0

/-- Generic leftmost regular-expression search: try the local matcher `f`
at every suffix of the input, left to right, handing it the preceding
character (for word-boundary tests).  This mirrors how a JS regex engine
advances its start position until a match attempt succeeds. -/
def scanFind {α : Type} (f : Option Char → Str → Option α) :
    Option Char → Str → Option α
  | prev, [] => f prev []
  | prev, c :: rest =>
    match f prev (c :: rest) with
    | some x => some x
    | none => scanFind f (some c) rest

/-- Word-boundary test between two neighbouring characters
(out-of-string counts as a non-word character). -/
def boundaryAt (prev nxt : Option Char) : Bool :=
  (match prev with | none => false | some c => isWordA c) ≠
  (match nxt with | none => false | some c => isWordA c)

/-- Decimal rendering of a natural number, for template interpolation. -/
def natStr (n : Nat) : Str := (Nat.repr n).toList

/-- Decimal rendering of an integer, for template interpolation. -/
def intStr (i : Int) : Str := (Int.repr i).toList

/-! ## Embedding of src/server/premium.js -/

/-- Tier string of the basic coverage level. -/
def osnovnoS : Str := "osnovno".toList

/-- Tier string of the partial-collision coverage level. -/
def delniS : Str := "delni_kasko".toList

/-- Tier string of the full-collision coverage level. -/
def polniS : Str := "polni_kasko".toList

/-- Embedding of normalizeCoverageLevel of src/server/premium.js: keyword
containment on the lowercased text, full before partial before basic. -/
def normalizeCoverageLevel (s : Str) : Option Str :=
  let t := jsLower s
  if containsStr t ( "polni".toList) then some polniS
  else if containsStr t ( "delni".toList) then some delniS
  else if containsStr t ( "osnov".toList) then some osnovnoS
  else none

/-- A JavaScript number as the premium calculator receives it: either a
finite value (modelled exactly as a rational) or one of the non-finite
values NaN, plus infinity, minus infinity. -/
inductive JSNum where
  | nan : JSNum
  | inf : JSNum
  | ninf : JSNum
  | fin : ℚ → JSNum
deriving DecidableEq

/-- Finiteness check, returning the rational payload when finite. -/
def JSNum.finQ? : JSNum → Option ℚ
  | .fin q => some q
  | _ => none

/-- The quote object returned by the premium calculator (the breakdown
record is flattened into the structure). -/
structure Quote where
  annual_eur : ℤ
  monthly_eur : ℤ
  base : ℚ
  ageFactor : ℚ
  hpFactor : ℚ
  cityFactor : ℚ
  coverageFactor : ℚ
deriving DecidableEq

/-- Rounding half toward positive infinity (JS rounding). -/
def jsRound (x : ℚ) : ℤ := ⌊x + 1/2⌋

/-- Coercion of a possibly-null string to a string, empty on null. -/
def jsOrEmpty (o : Option Str) : Str := match o with | some s => s | none => []

/-- City-factor lookup with default 1.0, as in the calculator. -/
def cityFactorOf (cityKey : Str) : ℚ :=
  if cityKey = "ljubljana".toList then 105/100
  else if cityKey = "maribor".toList then 103/100
  else if cityKey = "koper".toList then 102/100
  else if cityKey = "celje".toList then 101/100
  else if cityKey = "kranj".toList then 102/100
  else 1

/-- Coverage-factor lookup with default 1.0, as in the calculator. -/
def coverageFactorOf (lvl : Str) : ℚ :=
  if lvl = osnovnoS then 1
  else if lvl = delniS then 128/100
  else if lvl = polniS then 155/100
  else 1

/-- Embedding of calculate_premium of src/server/premium.js.  Throws
(modelled as an error result) on non-finite or negative age, non-finite or
non-positive horsepower, or an unset coverage level; otherwise rounds the
product of the base 220 with the clamped age factor, the clamped
horsepower factor, the city factor and the coverage factor. -/
def calculate_premium (vehicleAge horsepower : JSNum)
    (city coverageLevel : Option Str) : Except Str Quote :=
  let lvl := jsOrEmpty coverageLevel
  let cityStr : Str := match city with
    | some c => if c.isEmpty then "Other".toList else c
    | none => "Other".toList
  match vehicleAge.finQ? with
  | none => .error ( "vehicleAge must be a non-negative number".toList)
  | some age =>
    if age < 0 then .error ( "vehicleAge must be a non-negative number".toList)
    else
      match horsepower.finQ? with
      | none => .error ( "horsepower must be a positive number".toList)
      | some hp =>
        if hp ≤ 0 then .error ( "horsepower must be a positive number".toList)
        else if lvl.isEmpty then .error ( "coverageLevel is required".toList)
        else
          let base : ℚ := 220
          let ageFactor := max (78/100 : ℚ) (min (115/100 : ℚ) (110/100 - age * (2/100)))
          let hpFactor := max (85/100 : ℚ) (min (160/100 : ℚ) (85/100 + hp / 200))
          let cityFactor := cityFactorOf (jsLower cityStr)
          let coverageFactor := coverageFactorOf lvl
          let annual := jsRound (base * ageFactor * hpFactor * cityFactor * coverageFactor)
          let monthly := jsRound ((annual : ℚ) / 12)
          .ok { annual_eur := annual, monthly_eur := monthly, base := base,
                ageFactor := ageFactor, hpFactor := hpFactor,
                cityFactor := cityFactor, coverageFactor := coverageFactor }

end AgentCore

namespace AgentCore

/-! ## Text normalisation helpers of the server (parsing helpers section) -/

/-- Fuel-driven worker for the global word-bounded replacement of the
dictation artefact zdeset by deset (the first replace of
cleanTextForNumber).  The fuel is an upper bound on the number of steps;
each step consumes at least one character. -/
def replZdesetAux : Nat → Option Char → Str → Str
  | 0, _, s => s
  | _ + 1, _, [] => []
  | fuel + 1, prev, c :: rest =>
    match dropLit ( "zdeset".toList) (c :: rest) with
    | some r =>
      if boundaryAt prev (some c) && boundaryAt (some 't') r.head? then
        ( "deset".toList) ++ replZdesetAux fuel (some 't') r
      else c :: replZdesetAux fuel (some c) rest
    | none => c :: replZdesetAux fuel (some c) rest

/-- Global replacement of word-bounded zdeset by deset. -/
def replZdeset (s : Str) : Str := replZdesetAux (s.length + 1) none s

/-- Embedding of cleanTextForNumber: lowercase, NFKC (identity on the
working alphabet), the zdeset fix-up, replacement of everything outside
letters/marks/digits/whitespace by spaces, whitespace collapse, trim. -/
def cleanTextForNumber (s : Str) : Str :=
  collapseWs
    ((replZdeset (jsLower s)).map
      (fun c => if jsIsLetter c || c.isDigit || isWs c then c else ' '))

/-- Embedding of normalizeWord: lowercase and trim. -/
def normalizeWord (w : Str) : Str := strTrim (jsLower w)

/-- Single-character u-to-v substitution used by the fuzzy matcher. -/
def uvChar (c : Char) : Char := if c = 'u' then 'v' else c

/-- Embedding of isWordLike: exact match, or three-letter-prefix match on
words of length at least three, or equality after u/v substitution. -/
def isWordLike (word target : Str) : Bool :=
  let w := normalizeWord word
  let t := normalizeWord target
  w = t || (startsWithStr w (t.take 3) && decide (3 ≤ w.length)) ||
    (w.map uvChar = t.map uvChar)

/-- Embedding of normYesNo: lowercase, NFKC (identity), punctuation to
spaces, whitespace collapse, trim. -/
def normYesNo (s : Str) : Str :=
  collapseWs
    ((jsLower s).map (fun c => if jsIsLetter c || c.isDigit || isWs c then c else ' '))

/-- Embedding of firstToken: the first whitespace-delimited token of the
normalised text, empty if none. -/
def firstToken (s : Str) : Str := (splitWs (normYesNo s)).headD []

/-- Embedding of isAffirmative. -/
def isAffirmative (text : Str) : Bool :=
  let t := normYesNo text
  let ft := firstToken text
  ft = "da".toList || ft = "ja".toList ||
  startsWithStr t ( "seveda".toList) ||
  startsWithStr t ( "ok".toList) ||
  startsWithStr t ( "lahko".toList) ||
  ft = "mhm".toList || ft = "mhmm".toList ||
  ft = "valda".toList

/-- Embedding of isNegative. -/
def isNegative (text : Str) : Bool :=
  let t := normYesNo text
  let ft := firstToken text
  ft = "ne".toList || ft = "no".toList ||
  startsWithStr t ( "ne hvala".toList) ||
  startsWithStr t ( "ni treba".toList) ||
  ft = "nic".toList || ft = "nič".toList || ft = "nc".toList || ft = "nč".toList

/-! ## Embedding of parseSlNumberRobust -/

/-- Leftmost word-bounded run of one to four digits, the first step of the
robust number parser.  A longer digit run has no word boundary inside it,
so it can never match; a run followed by an ASCII word character fails the
trailing boundary for every backtracking length. -/
def firstDigitRun (t : Str) : Option Nat :=
  scanFind
    (fun prev suf =>
      match suf with
      | [] => none
      | c :: _ =>
        if c.isDigit && boundaryAt prev (some c) then
          let ds := suf.takeWhile Char.isDigit
          if ds.length ≤ 4 && boundaryAt ds.getLast? (suf.drop ds.length).head? then
            some (digitsToNat ds)
          else none
        else none)
    none t

/-- The ones table of parseSlNumberRobust, in insertion order. -/
def onesTbl : List (Str × Nat) :=
  [( "nič".toList, 0), ( "nic".toList, 0), ( "nula".toList, 0),
   ( "ena".toList, 1), ( "en".toList, 1), ( "eno".toList, 1),
   ( "dva".toList, 2), ( "dve".toList, 2),
   ( "tri".toList, 3),
   ( "štiri".toList, 4), ( "stiri".toList, 4),
   ( "pet".toList, 5),
   ( "šest".toList, 6), ( "sest".toList, 6),
   ( "sedem".toList, 7),
   ( "osem".toList, 8),
   ( "devet".toList, 9)]

/-- The teens table of parseSlNumberRobust, in insertion order. -/
def teensTbl : List (Str × Nat) :=
  [( "deset".toList, 10),
   ( "enajst".toList, 11),
   ( "dvanajst".toList, 12),
   ( "trinajst".toList, 13),
   ( "štirinajst".toList, 14), ( "stirinajst".toList, 14),
   ( "petnajst".toList, 15),
   ( "šestnajst".toList, 16), ( "sestnajst".toList, 16),
   ( "sedemnajst".toList, 17),
   ( "osemnajst".toList, 18),
   ( "devetnajst".toList, 19)]

/-- The tens table of parseSlNumberRobust, in insertion order, including
the spelling variants of the source. -/
def tensTbl : List (Str × Nat) :=
  [( "dvajset".toList, 20),
   ( "trideset".toList, 30),
   ( "štirideset".toList, 40), ( "stirideset".toList, 40),
   ( "petdeset".toList, 50), ( "petindeset".toList, 50),
   ( "šestdeset".toList, 60), ( "sestdeset".toList, 60),
   ( "šezdeset".toList, 60), ( "sezdeset".toList, 60), ( "sestindeset".toList, 60),
   ( "sedemdeset".toList, 70), ( "sedemindeset".toList, 70),
   ( "osemdeset".toList, 80), ( "osemindeset".toList, 80),
   ( "devetdeset".toList, 90), ( "devetindeset".toList, 90)]

/-- The hundreds list of parseSlNumberRobust, in source order. -/
def hundredsTbl : List (Str × Nat) :=
  [( "devetsto".toList, 900),
   ( "osemsto".toList, 800),
   ( "sedemsto".toList, 700),
   ( "šeststo".toList, 600), ( "seststo".toList, 600),
   ( "petsto".toList, 500),
   ( "štiristo".toList, 400), ( "stiristo".toList, 400),
   ( "tristo".toList, 300),
   ( "dvesto".toList, 200),
   ( "dve sto".toList, 200),
   ( "sto".toList, 100)]

/-- First table entry whose key occurs as a substring (the iteration over
entries with an includes test). -/
def firstIncl (tbl : List (Str × Nat)) (s : Str) : Option (Str × Nat) :=
  tbl.find? (fun kv => containsStr s kv.1)

/-- First ones entry whose compounded ones-in-tens form occurs in the
compacted string. -/
def firstCompound (compact k : Str) : Option Nat :=
  (onesTbl.find? (fun kv => containsStr compact (kv.1 ++ ( "in".toList) ++ k))).map
    (fun kv => kv.2)

/-- Trimming of a captured letter run from the right until the trailing
word boundary holds; the run is supplied reversed together with the
character following it. -/
def capTrim : Str → Option Char → Option Str
  | [], _ => none
  | c :: rest, nxt =>
    if boundaryAt (some c) nxt then some ((c :: rest).reverse)
    else capTrim rest (some c)

/-- Greedy capture of a letter run with a trailing word boundary, the
capturing group of the tens-follower regex. -/
def capWord (suf : Str) : Option Str :=
  let run := suf.takeWhile (fun c => jsIsLetter c)
  capTrim run.reverse ((suf.drop run.length).head?)

/-- Matching of the part of the tens-follower regex after the tens word:
an optional connective group (whitespace plus the word in plus whitespace,
or whitespace alone, or nothing), then a captured letter run with a
trailing boundary.  Alternatives are tried in the alternation order with
backtracking, as the JS engine does. -/
def tensAfterWord (rest : Str) : Option Str :=
  let w1 := rest.takeWhile isWs
  let tryA : Option Str :=
    if w1.isEmpty then none
    else
      match dropLit ( "in".toList) (rest.drop w1.length) with
      | none => none
      | some r2 =>
        let w2 := r2.takeWhile isWs
        if w2.isEmpty then none else capWord (r2.drop w2.length)
  match tryA with
  | some w => some w
  | none =>
    match (if w1.isEmpty then none else capWord (rest.drop w1.length)) with
    | some w => some w
    | none => capWord rest

/-- Leftmost word-bounded occurrence of the tens word followed by a
successfully captured follower word (the dynamically built regex of
parseBelow100).  A boundary before a diacritic-initial tens word needs a
preceding ASCII word character, exactly as in the JS semantics. -/
def tensFollowCapture (s k : Str) : Option Str :=
  scanFind
    (fun prev suf =>
      match dropLit k suf with
      | none => none
      | some r =>
        if boundaryAt prev suf.head? && boundaryAt k.getLast? r.head? then
          tensAfterWord r
        else none)
    none s

/-- Scan over adjacent token pairs looking for a ones word (or a fuzzy
devet/osem/sedem) followed by the literal token deset. -/
def twoTokenTens : List Str → Option Nat
  | a :: b :: rest =>
    (if b = "deset".toList then
      match List.lookup a onesTbl with
      | some ov => some (ov * 10)
      | none =>
        if isWordLike a ( "devet".toList) then some 90
        else if isWordLike a ( "osem".toList) then some 80
        else if isWordLike a ( "sedem".toList) then some 70
        else twoTokenTens (b :: rest)
    else twoTokenTens (b :: rest))
  | _ => none

/-- Embedding of parseBelow100: tens (with compacted compound, then the
follower-word regex), then teens, then the two-token tens form, then
ones, then the fuzzy single-word devet. -/
def parseBelow100 (s : Str) : Option Nat :=
  match firstIncl tensTbl s with
  | some (k, v) =>
    let compact := s.filter (fun c => !(isWs c))
    match firstCompound compact k with
    | some ov => some (v + ov)
    | none =>
      match tensFollowCapture s k with
      | some w =>
        let wl := jsLower w
        match List.lookup wl onesTbl with
        | some ov => some (v + ov)
        | none => if isWordLike wl ( "devet".toList) then some (v + 9) else some v
      | none => some v
  | none =>
  match firstIncl teensTbl s with
  | some (_, v) => some v
  | none =>
    let ws := splitWs s
    match twoTokenTens ws with
    | some n => some n
    | none =>
    match firstIncl onesTbl s with
    | some (_, v) => some v
    | none =>
      match ws with
      | [w] => if isWordLike w ( "devet".toList) then some 9 else none
      | _ => none

/-- Test for a hundred word delimited by start/end or whitespace (the
dynamically built separator-test regex of the hundreds loop). -/
def sepOccurs (s hw : Str) : Bool :=
  (scanFind
    (fun prev suf =>
      match dropLit hw suf with
      | some r =>
        if (match prev with | none => true | some c => isWs c) &&
           (match r.head? with | none => true | some c => isWs c) then some ()
        else none
      | none => none)
    none s).isSome

/-- Indexed variant of the leftmost scan, reporting the match position. -/
def scanFindIdx {α : Type} (f : Option Char → Str → Option α) :
    Nat → Option Char → Str → Option (Nat × α)
  | i, prev, [] => (f prev []).map (fun x => (i, x))
  | i, prev, c :: rest =>
    match f prev (c :: rest) with
    | some x => some (i, x)
    | none => scanFindIdx f (i + 1) (some c) rest

/-- Leftmost word-bounded occurrence of a word, returning its position and
the remainder after it; the initial preceding-character context is passed
in so the search can continue mid-string. -/
def bOcc (prev0 : Option Char) (s hw : Str) : Option (Nat × Str) :=
  scanFindIdx
    (fun prev suf =>
      match dropLit hw suf with
      | some r =>
        if boundaryAt prev suf.head? && boundaryAt hw.getLast? r.head? then some r
        else none
      | none => none)
    0 prev0 s

/-- Second element of the split of a string on word-bounded occurrences of
a hundred word: the text between the first occurrence and the next one (or
the end), empty when there is no occurrence (an absent array element is
coerced to the empty string by the source). -/
def bSplitSecond (s hw : Str) : Str :=
  match bOcc none s hw with
  | none => []
  | some (_, rest) =>
    match bOcc hw.getLast? rest hw with
    | none => rest
    | some (j, _) => rest.take j

/-- Embedding of the hundreds step of parseSlNumberRobust: the first
hundred word occurring with whitespace separation wins; the remainder
after it (up to a second occurrence) is parsed as a below-100 value and
added when present. -/
def hundredsStep (joined : Str) : Option Nat :=
  match hundredsTbl.find? (fun kv => sepOccurs joined kv.1) with
  | none => none
  | some (hw, hv) =>
    let after := strTrim (bSplitSecond joined hw)
    if after.isEmpty then some hv
    else
      match parseBelow100 after with
      | some r => some (hv + r)
      | none => some hv

/-- Embedding of parseSlNumberRobust: clean the text, prefer a word-bounded
digit run, then the hundreds step, then the below-100 parser. -/
def parseSlNumberRobust (text : Str) : Option Nat :=
  let t := cleanTextForNumber text
  match firstDigitRun t with
  | some n => some n
  | none =>
    let words := splitWs t
    if words.isEmpty then none
    else
      let joined := joinSp words
      match hundredsStep joined with
      | some n => some n
      | none => parseBelow100 joined

end AgentCore

namespace AgentCore

/-! ## Embedding of the entity extractors -/

/-- Matching of a unit-word alternation with a trailing word boundary
after optional whitespace (the tail of the digit-with-unit patterns). -/
def unitAfter (units : List Str) (r : Str) : Bool :=
  let r2 := r.dropWhile isWs
  units.any (fun u =>
    match dropLit u r2 with
    | some rr => boundaryAt u.getLast? rr.head?
    | none => false)

/-- The year-unit alternation of the age pattern, in source order. -/
def ageUnits : List Str :=
  [ "let".toList, "leto".toList, "leti".toList, "letih".toList,
    "lit".toList, "lita".toList, "liti".toList]

/-- The horsepower-unit alternation of the horsepower pattern. -/
def hpUnits : List Str :=
  [ "km".toList, "konj".toList, "konji".toList, "konjev".toList, "konjska".toList]

/-- Leftmost match of the word-bounded one-or-two-digit run followed by a
year-unit word (the first regex of extractVehicleAge).  A digit run longer
than two characters can satisfy neither the greedy take nor any
backtracked shorter take, because the character after a shorter take is
again a digit and no unit word starts with a digit. -/
def ageUnitMatch (t : Str) : Option Nat :=
  scanFind
    (fun prev suf =>
      match suf with
      | [] => none
      | c :: _ =>
        if c.isDigit && boundaryAt prev (some c) then
          let ds := suf.takeWhile Char.isDigit
          if ds.length ≤ 2 && unitAfter ageUnits (suf.drop ds.length) then
            some (digitsToNat ds)
          else none
        else none)
    none t

/-- Leftmost match of the word-bounded two-to-four-digit run followed by a
horsepower-unit word (the first regex of extractHorsepower). -/
def hpUnitMatch (t : Str) : Option Nat :=
  scanFind
    (fun prev suf =>
      match suf with
      | [] => none
      | c :: _ =>
        if c.isDigit && boundaryAt prev (some c) then
          let ds := suf.takeWhile Char.isDigit
          if 2 ≤ ds.length && ds.length ≤ 4 && unitAfter hpUnits (suf.drop ds.length) then
            some (digitsToNat ds)
          else none
        else none)
    none t

/-- Backtracking over the greedy word-character run of the keyword-digit
patterns (the star and power patterns have a keyword, then a word-run,
then optional whitespace, then a digit group with no trailing boundary):
try the run lengths from longest to shortest, reading at each stop a
whitespace run and then between minD and maxD digits, greedily. -/
def tailDigitAt (minD maxD : Nat) (r : Str) (len : Nat) : Option Nat :=
  let ds := (((r.drop len).dropWhile isWs).takeWhile Char.isDigit).take maxD
  if minD ≤ ds.length then some (digitsToNat ds) else none

/-- Descending sweep of `tailDigitAt` from the full word-run length down
to zero, mirroring longest-first backtracking. -/
def tailDigitScan (minD maxD : Nat) (r : Str) : Nat → Option Nat
  | 0 => tailDigitAt minD maxD r 0
  | len + 1 =>
    match tailDigitAt minD maxD r (len + 1) with
    | some n => some n
    | none => tailDigitScan minD maxD r len

/-- Leftmost match of the star-keyword pattern of extractVehicleAge
(the keyword may occur mid-word; the digit group takes one or two
digits). -/
def starMatch (t : Str) : Option Nat :=
  scanFind
    (fun _ suf =>
      match dropLit ( "star".toList) suf with
      | some r => tailDigitScan 1 2 r (r.takeWhile isWordA).length
      | none => none)
    none t

/-- Leftmost match of the power-keyword pattern of extractHorsepower
(two to four digits). -/
def mocMatch (t : Str) : Option Nat :=
  scanFind
    (fun _ suf =>
      match dropLit ( "moč".toList) suf with
      | some r => tailDigitScan 2 4 r (r.takeWhile isWordA).length
      | none => none)
    none t

/-- Embedding of extractVehicleAge: the digit-with-unit pattern, then the
star pattern, then the numeral parser restricted to the range up to 40
(the lower bound zero of the source is automatic for naturals). -/
def extractVehicleAge (text : Str) : Option Nat :=
  let t := cleanTextForNumber text
  match ageUnitMatch t with
  | some n => some n
  | none =>
  match starMatch t with
  | some n => some n
  | none =>
  match parseSlNumberRobust t with
  | some n => if n ≤ 40 then some n else none
  | none => none

/-- Embedding of extractHorsepower: the digit-with-unit pattern, then the
power pattern, then the numeral parser restricted to the range 20 to
600. -/
def extractHorsepower (text : Str) : Option Nat :=
  let t := cleanTextForNumber text
  match hpUnitMatch t with
  | some n => some n
  | none =>
  match mocMatch t with
  | some n => some n
  | none =>
  match parseSlNumberRobust t with
  | some n => if 20 ≤ n && n ≤ 600 then some n else none
  | none => none

/-- Embedding of extractCoverageLevel of the server: the shared
normaliser first, then its own keyword containment (basic before partial
before full), then the generic kasko fallback to the full tier when a
premium context is signalled. -/
def extractCoverageLevel (text : Str) (wantsPremium : Bool) : Option Str :=
  match normalizeCoverageLevel text with
  | some n => some n
  | none =>
    let t := jsLower text
    if containsStr t ( "osnov".toList) then some osnovnoS
    else if containsStr t ( "delni".toList) then some delniS
    else if containsStr t ( "polni".toList) then some polniS
    else if wantsPremium && containsStr t ( "kasko".toList) then some polniS
    else none

/-- Embedding of mentionsCoverage. -/
def mentionsCoverage (text : Str) : Bool :=
  let t := jsLower text
  containsStr t ( "kasko".toList) || containsStr t ( "delni".toList) ||
  containsStr t ( "polni".toList) || containsStr t ( "osnov".toList)

/-- Embedding of isProbablyNotCityWord. -/
def isProbablyNotCityWord (raw : Str) : Bool :=
  let t := strTrim (jsLower raw)
  containsStr t ( "kasko".toList) || containsStr t ( "osnov".toList) ||
  t = "da".toList || t = "ne".toList || t = "ja".toList ||
  decide (t.length < 3)

/-- City normalisation lookup of extractCity (case forms to city names). -/
def cityNormMap (key : Str) : Option Str :=
  if key = "kopru".toList || key = "koper".toList then some ( "Koper".toList)
  else if key = "ljubljani".toList || key = "ljubljana".toList then some ( "Ljubljana".toList)
  else if key = "mariboru".toList || key = "maribor".toList then some ( "Maribor".toList)
  else if key = "celju".toList || key = "celje".toList then some ( "Celje".toList)
  else if key = "kranju".toList || key = "kranj".toList then some ( "Kranj".toList)
  else none

/-- The preposition alternation of the city pattern, in source order. -/
def cityPreps : List Str :=
  [ "v".toList, "iz".toList, "pri".toList, "blizu".toList, "okolica".toList]

/-- City-name character class: letters, marks and the hyphen. -/
def isCityChar (c : Char) : Bool := jsIsLetter c || c = '-'

/-- Optional further token of the city pattern: whitespace then a run of
at least three city-name characters. -/
def cityOptTok (r : Str) : Option (Str × Str) :=
  let w := r.takeWhile isWs
  if w.isEmpty then none
  else
    let run := (r.drop w.length).takeWhile isCityChar
    if 3 ≤ run.length then some (run, r.drop (w.length + run.length)) else none

/-- Matching attempt of the preposition-city pattern at one position: the
prepositions are tried in alternation order, each continued by mandatory
whitespace, a run of at least three city-name characters, and up to two
optional further runs; on a failed continuation the next alternative is
tried, as the JS engine backtracks. -/
def cityPrepTry (prev : Option Char) (suf : Str) : List Str → Option (List Str)
  | [] => none
  | p :: ps =>
    match dropLitCI p suf with
    | none => cityPrepTry prev suf ps
    | some r =>
      if boundaryAt prev suf.head? then
        let w := r.takeWhile isWs
        if w.isEmpty then cityPrepTry prev suf ps
        else
          let run2 := (r.drop w.length).takeWhile isCityChar
          if 3 ≤ run2.length then
            let rest := r.drop (w.length + run2.length)
            some
              (match cityOptTok rest with
               | none => [run2]
               | some (w3, rest2) =>
                 match cityOptTok rest2 with
                 | none => [run2, w3]
                 | some (w4, _) => [run2, w3, w4])
          else cityPrepTry prev suf ps
      else none

/-- Leftmost match of the preposition-city regex of extractCity; the
captures keep the original casing. -/
def cityPrepMatch (raw : Str) : Option (List Str) :=
  scanFind (fun prev suf => cityPrepTry prev suf cityPreps) none raw

/-- Embedding of extractCity: cleaning to letters/hyphens/spaces, the
fixed do-not-care phrases to the sentinel Other, rejection of coverage
words, yes/no words, too-short text and parseable numbers, then the
single-word form (with the case-form lookup) and the preposition form. -/
def extractCity (text : Str) : Option Str :=
  let raw := collapseWs
    ((strTrim text).map (fun c => if jsIsLetter c || c = '-' || c = ' ' then c else ' '))
  let t := jsLower raw
  let compact := t.filter (fun c => !(isWs c))
  if compact = "vseeno".toList || compact = "vseno".toList ||
     compact = "karkoli".toList || compact = "kjerkoli".toList ||
     containsStr t ( "ni pomembno".toList) || containsStr t ( "nima veze".toList) then
    some ( "Other".toList)
  else if mentionsCoverage raw || (extractCoverageLevel raw false).isSome then none
  else if isProbablyNotCityWord raw then none
  else if (parseSlNumberRobust t).isSome then none
  else if raw.all isCityChar && decide (3 ≤ raw.length) then
    some ((cityNormMap t).getD raw)
  else
    match cityPrepMatch raw with
    | some parts =>
      let joined := joinSp parts
      some ((cityNormMap (jsLower joined)).getD joined)
    | none => none

end AgentCore

namespace AgentCore

/-! ## Embedding of the intent classifier -/

/-- Prefix test with a trailing word boundary (the anchored info-question
patterns). -/
def startsWithB (t pat : Str) : Bool :=
  match dropLit pat t with
  | some r => boundaryAt pat.getLast? r.head?
  | none => false

/-- Embedding of looksLikeInfoQuestion: anchored interrogative openers and
domain keywords on the lowercased, trimmed text. -/
def looksLikeInfoQuestion (text : Str) : Bool :=
  let t := strTrim (jsLower text)
  startsWithB t ( "kaj".toList) || startsWithB t ( "kaj pomeni".toList) ||
  startsWithB t ( "kaj je".toList) || startsWithB t ( "kako".toList) ||
  startsWithB t ( "kdaj".toList) || startsWithB t ( "kje".toList) ||
  startsWithB t ( "zakaj".toList) ||
  containsStr t ( "pomeni".toList) || containsStr t ( "razlika".toList) ||
  containsStr t ( "krije".toList) || containsStr t ( "kritje".toList) ||
  containsStr t ( "postopek".toList) || containsStr t ( "prijavim škodo".toList) ||
  containsStr t ( "odškodnin".toList) || containsStr t ( "odskodnin".toList) ||
  containsStr t ( "dokaz".toList) || containsStr t ( "kaj potrebujem".toList) ||
  containsStr t ( "kaj rabim".toList) || containsStr t ( "kateri dokument".toList) ||
  containsStr t ( "škod".toList) || containsStr t ( "skod".toList)

/-- Embedding of hasCalcWording. -/
def hasCalcWording (text : Str) : Bool :=
  let t := jsLower text
  containsStr t ( "izračun".toList) || containsStr t ( "izracun".toList) ||
  containsStr t ( "izračunaj".toList) || containsStr t ( "izracunaj".toList) ||
  containsStr t ( "premija".toList) || containsStr t ( "koliko stane".toList) ||
  containsStr t ( "koliko bi stal".toList) || containsStr t ( "cena".toList) ||
  containsStr t ( "strošek".toList) || containsStr t ( "stane".toList) ||
  containsStr t ( "koliko pride".toList)

/-- The year-unit alternation of the hint patterns (without the last two
dictation variants of the extractor pattern). -/
def ageHintUnits : List Str :=
  [ "let".toList, "leto".toList, "leti".toList, "letih".toList, "lit".toList]

/-- Test for a digit run followed by a unit word (the unanchored hint
regexes: no leading word boundary, greedy digit take, trailing boundary
after the unit). -/
def digitUnitHint (minD maxD : Nat) (units : List Str) (t : Str) : Bool :=
  (scanFind
    (fun _ suf =>
      match suf with
      | [] => none
      | c :: _ =>
        if c.isDigit then
          let run := suf.takeWhile Char.isDigit
          let k := min maxD run.length
          if minD ≤ k && unitAfter units (suf.drop k) then some () else none
        else none)
    none t).isSome

/-- Matching attempt of a word-bounded preposition followed by whitespace
and a run of at least three city-name characters, per alternation order. -/
def prepTryWord (prev : Option Char) (suf : Str) : List Str → Option Unit
  | [] => none
  | p :: ps =>
    match dropLitCI p suf with
    | none => prepTryWord prev suf ps
    | some r =>
      if boundaryAt prev suf.head? then
        let w := r.takeWhile isWs
        if w.isEmpty then prepTryWord prev suf ps
        else if 3 ≤ ((r.drop w.length).takeWhile isCityChar).length then some ()
        else prepTryWord prev suf ps
      else none

/-- Test form of the preposition-and-word pattern (the city hint of
hasAnyPremiumSlotHints, applied to the original-case text). -/
def prepWordTest (text : Str) : Bool :=
  (scanFind (fun prev suf => prepTryWord prev suf cityPreps) none text).isSome

/-- Matching attempt of a word-bounded preposition followed by at least
one whitespace character (the weaker city hint of isNewPremiumRequest). -/
def prepOnlyTry (prev : Option Char) (suf : Str) : List Str → Option Unit
  | [] => none
  | p :: ps =>
    match dropLitCI p suf with
    | none => prepOnlyTry prev suf ps
    | some r =>
      if boundaryAt prev suf.head? then
        if (r.takeWhile isWs).isEmpty then prepOnlyTry prev suf ps else some ()
      else none

/-- Test form of the preposition-and-whitespace pattern. -/
def prepOnlyTest (t : Str) : Bool :=
  (scanFind (fun prev suf => prepOnlyTry prev suf cityPreps) none t).isSome

/-- Embedding of hasAnyPremiumSlotHints: an age cue, a horsepower cue, or
a preposition-city cue. -/
def hasAnyPremiumSlotHints (text : Str) : Bool :=
  let t := jsLower text
  (digitUnitHint 1 2 ageHintUnits t || containsStr t ( "star ".toList)) ||
  (digitUnitHint 2 4 hpUnits t || containsStr t ( "konj".toList)) ||
  prepWordTest text

/-- Embedding of wantsComparison. -/
def wantsComparison (text : Str) : Bool :=
  let t := jsLower text
  containsStr t ( "primerjaj".toList) || containsStr t ( "primerjava".toList) ||
  containsStr t ( "primerjavo".toList) || containsStr t ( "daj še".toList) ||
  containsStr t ( "še delni".toList) || containsStr t ( "še polni".toList) ||
  containsStr t ( "še osnovno".toList) || containsStr t ( "namesto".toList) ||
  containsStr t ( "tudi delni".toList) || containsStr t ( "tudi polni".toList)

/-- Embedding of isNewPremiumRequest: a vehicle noun together with an age,
horsepower or city cue. -/
def isNewPremiumRequest (text : Str) : Bool :=
  let t := jsLower text
  let hasAgeHint := digitUnitHint 1 2 ageHintUnits t || containsStr t ( "star ".toList)
  let hasHpHint := digitUnitHint 2 4 hpUnits t || containsStr t ( "konj".toList)
  let hasCityHint := prepOnlyTest t
  let hasVehicle := containsStr t ( "avto".toList) || containsStr t ( "vozilo".toList)
  hasVehicle && (hasAgeHint || hasHpHint || hasCityHint)

/-- Embedding of wantsNewVehicle: the explicit new-vehicle reset phrases. -/
def wantsNewVehicle (text : Str) : Bool :=
  let t := jsLower text
  containsStr t ( "nov izračun".toList) || containsStr t ( "nov izracun".toList) ||
  containsStr t ( "novo vozilo".toList) || containsStr t ( "nov avto".toList) ||
  containsStr t ( "novo avto".toList) || containsStr t ( "drugo vozilo".toList) ||
  containsStr t ( "drug avto".toList)

/-- Embedding of isLikelyAnswerToComparison. -/
def isLikelyAnswerToComparison (text : Str) : Bool :=
  isAffirmative text || isNegative text ||
  (extractCoverageLevel text true).isSome || mentionsCoverage text

/-! ## Embedding of the dialogue state -/

/-- The premium draft record of the session state (the pending flag of the
response payload is constant and left implicit). -/
structure Draft where
  vehicleAge : Option Nat
  horsepower : Option Nat
  city : Option Str
  coverageLevel : Option Str
  pendingSlot : Option Str
deriving DecidableEq

/-- The prefill cache of the most recent completed quote. -/
structure LastPremium where
  vehicleAge : Option Nat
  horsepower : Option Nat
  city : Option Str
deriving DecidableEq

/-- The per-session state of the server: the transcript of role-tagged
messages and the mutable premium-flow fields. -/
structure SessState where
  messages : List (Str × Str)
  premium : Option Draft
  lastPremium : Option LastPremium
  comparedLevels : List Str
  pendingComparison : Option (List Str)
deriving DecidableEq

/-- JS truthiness of a nullable string: non-null and non-empty. -/
def strOptTruthy (o : Option Str) : Bool :=
  match o with | some s => !s.isEmpty | none => false

/-- Embedding of isPremiumIntent: an outstanding comparison always wins;
otherwise information questions without calculation wording defer, then
calculation wording, coverage-with-slot-hints, and comparison wording
backed by a previous premium classify as premium intent. -/
def isPremiumIntent (text : Str) (s : SessState) : Bool :=
  if s.pendingComparison.isSome then true
  else
    let infoQ := looksLikeInfoQuestion text
    let calcW := hasCalcWording text
    let cov := mentionsCoverage text
    let slots := hasAnyPremiumSlotHints text
    let cmp := wantsComparison text
    if infoQ && !calcW then false
    else if calcW then true
    else if cov && slots then true
    else if cmp && s.lastPremium.isSome then true
    else false

/-- Embedding of missingSlot: age, then horsepower, then coverage; the
city never appears. -/
def missingSlot (p : Draft) : Option Str :=
  if p.vehicleAge.isNone then some ( "vehicleAge".toList)
  else if p.horsepower.isNone then some ( "horsepower".toList)
  else if !(strOptTruthy p.coverageLevel) then some ( "coverageLevel".toList)
  else none

/-- Embedding of questionForSlot. -/
def questionForSlot (slot : Str) : Option Str :=
  if slot == "vehicleAge".toList then some ( "Koliko je star avto (v letih)?".toList)
  else if slot == "horsepower".toList then
    some ( "Koliko ima avto konjskih moči (KM)?".toList)
  else if slot == "coverageLevel".toList then
    some ( "Katero kritje želite: osnovno, delni kasko ali polni kasko?".toList)
  else none

/-- Rendering of a nullable string in a template literal. -/
def optStrOrNull (o : Option Str) : Str :=
  match o with | some s => s | none => "null".toList

/-- Rendering of a nullable number in a template literal. -/
def optNatStr (o : Option Nat) : Str :=
  match o with | some n => natStr n | none => "null".toList

/-- Embedding of formatCoverageLabel. -/
def formatCoverageLabel (lvl : Option Str) : Str :=
  if lvl == some osnovnoS then "osnovno zavarovanje".toList
  else if lvl == some delniS then "delni kasko".toList
  else if lvl == some polniS then "polni kasko".toList
  else optStrOrNull lvl

/-- Set insertion on the insertion-ordered comparedLevels set. -/
def jsSetAdd (l : List Str) (x : Str) : List Str := if l.contains x then l else l ++ [x]

/-- Coercion a nullable slot number receives when passed to the
calculator: null coerces to zero. -/
def jsNumOfOptNat (o : Option Nat) : JSNum :=
  match o with | some n => .fin (n : ℚ) | none => .fin 0

end AgentCore

namespace AgentCore

/-! ## Embedding of the turn handler -/

/-- Role tag of user messages. -/
def userRoleS : Str := "user".toList

/-- Role tag of assistant messages. -/
def assistantRoleS : Str := "assistant".toList

/-- Role tag of the initial system message. -/
def systemRoleS : Str := "system".toList

/-- The system prompt a fresh session starts with. -/
def initSystemPrompt : Str :=
  ( "Ti si prijazen inbound AI voice agent zavarovalnice. ".toList) ++
  ( "Odgovarjaj v slovenščini. Če je izjava nejasna, postavi eno kratko dodatno vprašanje. ".toList) ++
  ( "Odgovori naj bodo kratki, praktični in razumljivi.".toList)

/-- A fresh session as getSession creates it. -/
def initSession : SessState :=
  { messages := [(systemRoleS, initSystemPrompt)], premium := none,
    lastPremium := none, comparedLevels := [], pendingComparison := none }

/-- Appending of a role-tagged message to the transcript. -/
def pushMsg (s : SessState) (role content : Str) : SessState :=
  { s with messages := s.messages ++ [(role, content)] }

/-- The optional response payload accompanying a reply: at most the
pending draft (sent with a constant pending flag), a premium quote, or
the list of retrieved document ids. -/
structure Extra where
  premium : Option Draft
  premiumResult : Option Quote
  ragDocs : Option (List Str)
deriving DecidableEq

/-- The payload with none of the three optional fields. -/
def emptyExtra : Extra := { premium := none, premiumResult := none, ragDocs := none }

/-- The response of one turn: a successful JSON reply (reaching the
speech-synthesis call with transcript, reply text and payload), the
missing-audio client error, or an internal error carrying the thrown
message. -/
inductive Resp where
  | ok : Str → Str → Extra → Resp
  | err400 : Resp
  | err500 : Str → Resp
deriving DecidableEq

/-- Collaborator inputs and outcomes of one turn: presence of the audio
file, success and output of transcription, success and output of the LLM
answerer, and the ids the document retriever hands the answering path.
The speech-synthesis outcome is applied separately at the end, since
every successful path responds through the synthesis call. -/
structure TurnArgs where
  audioPresent : Bool
  sttOk : Bool
  transcript : Str
  llmOk : Bool
  llmText : Str
  ragIds : List Str
deriving DecidableEq

/-- A successful response at the point respondWithTTS is reached (the
synthesis outcome is applied afterwards by applyTTS). -/
def respond (s : SessState) (transcript replyText : Str) (extra : Extra) :
    SessState × Resp :=
  (s, .ok transcript replyText extra)

/-- Prefilled draft created when a comparison answer chooses a tier: the
vehicle fields come from the prefill cache, the coverage is preset. -/
def draftFromLast (lp : Option LastPremium) (lvl : Str) : Draft :=
  { vehicleAge := match lp with | some l => l.vehicleAge | none => none,
    horsepower := match lp with | some l => l.horsepower | none => none,
    city := match lp with | some l => l.city | none => none,
    coverageLevel := some lvl,
    pendingSlot := none }

/-- Embedding of the pendingComparison block of the turn handler: either
an early response (left) or fall-through to the rest of the turn with the
possibly updated state (right). -/
def pcStep (s : SessState) (transcript : Str) : (SessState × Resp) ⊕ SessState :=
  match s.pendingComparison with
  | none => .inr s
  | some opts =>
    let lower := jsLower transcript
    let mentionsBoth :=
      containsStr lower ( "delni".toList) && containsStr lower ( "polni".toList)
    if opts.length == 2 && mentionsBoth then
      let replyText := "Lahko izračunam oba. Kateri naj najprej: delni ali polni kasko?".toList
      .inl (respond (pushMsg s assistantRoleS replyText) transcript replyText emptyExtra)
    else if looksLikeInfoQuestion transcript && !mentionsCoverage transcript &&
        !hasCalcWording transcript then
      .inr { s with pendingComparison := none }
    else if !(isLikelyAnswerToComparison transcript) then
      let s1 := { s with pendingComparison := none }
      let replyText :=
        ( "Nisem prepričan, kaj želite. Ali želite primerjavo kritij (delni/polni kasko) ".toList) ++
        ( "ali imate drugo vprašanje (npr. prijava škode)?".toList)
      .inl (respond (pushMsg s1 assistantRoleS replyText) transcript replyText emptyExtra)
    else
      let saidLevel := extractCoverageLevel transcript true
      if (match saidLevel with | some lvl => opts.contains lvl | none => false) then
        .inr { s with pendingComparison := none,
                      premium := some (draftFromLast s.lastPremium
                        (match saidLevel with | some lvl => lvl | none => [])) }
      else if isNegative transcript then
        let s1 := { s with pendingComparison := none }
        let replyText := "V redu. Želite še kaj? Lahko naredim nov izračun za drugo vozilo.".toList
        .inl (respond (pushMsg s1 assistantRoleS replyText) transcript replyText emptyExtra)
      else if isAffirmative transcript then
        if opts.length == 1 then
          .inr { s with pendingComparison := none,
                        premium := some (draftFromLast s.lastPremium (opts.headD [])) }
        else
          let replyText := "Super — želite delni kasko ali polni kasko?".toList
          .inl (respond (pushMsg s assistantRoleS replyText) transcript replyText emptyExtra)
      else
        let replyText := "Samo da preverim — želite delni kasko ali polni kasko?".toList
        .inl (respond (pushMsg s assistantRoleS replyText) transcript replyText emptyExtra)

/-- The fixed closing follow-up offered when no further tier remains. -/
def noMoreS : Str := "Želite še kaj? Lahko naredim nov izračun za drugo vozilo.".toList

/-- The fixed preamble of the slot questions. -/
def questionReplyPre : Str :=
  "Seveda — za izračun premije potrebujem še eno informacijo. ".toList

/-- The quote reply template of the turn handler. -/
def quoteReply (p : Draft) (result : Quote) (followUp : Str) : Str :=
  ( "Ocena premije za ".toList) ++ formatCoverageLabel p.coverageLevel ++
  ( " (".toList) ++ optNatStr p.vehicleAge ++ ( " let star avto, ".toList) ++
  optNatStr p.horsepower ++ ( " KM, ".toList) ++ optStrOrNull p.city ++
  ( ") je približno ".toList) ++ intStr result.annual_eur ++
  ( " € na leto (okoli ".toList) ++ intStr result.monthly_eur ++
  ( " € na mesec). ".toList) ++ followUp

/-- Draft-update part of the premium flow: draft creation with optional
prefill, then opportunistic or slot-targeted extraction and the in-place
slot updates. -/
def updatedDraft (s : SessState) (transcript : Str) (newVehicleReq : Bool) : Draft :=
  let p0 : Draft :=
    match s.premium with
    | some p => p
    | none =>
      let allowPrefill := s.lastPremium.isSome && !newVehicleReq
      { vehicleAge :=
          if allowPrefill then
            match s.lastPremium with | some lp => lp.vehicleAge | none => none
          else none,
        horsepower :=
          if allowPrefill then
            match s.lastPremium with | some lp => lp.horsepower | none => none
          else none,
        city :=
          if allowPrefill then
            match s.lastPremium with | some lp => lp.city | none => none
          else none,
        coverageLevel := none, pendingSlot := none }
  let ext :=
    if !(strOptTruthy p0.pendingSlot) then
      (extractVehicleAge transcript, extractHorsepower transcript,
       extractCity transcript, extractCoverageLevel transcript true)
    else
      ((if p0.pendingSlot == some ( "vehicleAge".toList) then extractVehicleAge transcript
        else none),
       (if p0.pendingSlot == some ( "horsepower".toList) then extractHorsepower transcript
        else none),
       none,
       (if p0.pendingSlot == some ( "coverageLevel".toList) then
          extractCoverageLevel transcript true
        else none))
  let p1 : Draft :=
    { p0 with
      vehicleAge := match ext.1 with | some a => some a | none => p0.vehicleAge,
      horsepower := match ext.2.1 with | some h => some h | none => p0.horsepower,
      city := if strOptTruthy ext.2.2.1 then ext.2.2.1 else p0.city,
      coverageLevel := if strOptTruthy ext.2.2.2 then ext.2.2.2 else p0.coverageLevel }
  p1

/-- Quote emission on a complete draft (after the city default): the
calculator call, the comparedLevels update, the follow-up offer and the
prefill-cache update. -/
def quoteEmit (s : SessState) (transcript : Str) (p2 : Draft) : SessState × Resp :=
    let s1 := { s with premium := some p2 }
    match calculate_premium (jsNumOfOptNat p2.vehicleAge) (jsNumOfOptNat p2.horsepower)
        p2.city p2.coverageLevel with
    | .error msg => (s1, .err500 msg)
    | .ok result =>
      let cl := jsSetAdd s1.comparedLevels
        (match p2.coverageLevel with | some c => c | none => [])
      let wantDelni := !(cl.contains delniS)
      let wantPolni := !(cl.contains polniS)
      let followUp : Str :=
        if p2.coverageLevel == some osnovnoS then
          if wantDelni || wantPolni then
            "Želite primerjavo za delni ali polni kasko?".toList
          else noMoreS
        else if p2.coverageLevel == some delniS then
          if wantPolni then "Želite še izračun za polni kasko?".toList else noMoreS
        else if p2.coverageLevel == some polniS then
          if wantDelni then "Želite še izračun za delni kasko?".toList else noMoreS
        else noMoreS
      let pendingOptions : Option (List Str) :=
        if p2.coverageLevel == some osnovnoS then
          if wantDelni || wantPolni then
            some ((if wantDelni then [delniS] else []) ++
                  (if wantPolni then [polniS] else []))
          else none
        else if p2.coverageLevel == some delniS then
          if wantPolni then some [polniS] else none
        else if p2.coverageLevel == some polniS then
          if wantDelni then some [delniS] else none
        else none
      let replyText := quoteReply p2 result followUp
      let s2 :=
        { s1 with
          lastPremium := some { vehicleAge := p2.vehicleAge,
                                horsepower := p2.horsepower, city := p2.city },
          premium := none,
          comparedLevels := cl,
          pendingComparison := pendingOptions }
      respond (pushMsg s2 assistantRoleS replyText) transcript replyText
        { emptyExtra with premiumResult := some result }

/-- Continuation of the premium flow on the updated draft: the
missing-slot question, the city default, the calculator call (whose
failure is thrown after the slot updates were committed), the
comparedLevels update and the follow-up offer. -/
def premiumFinish (s : SessState) (transcript : Str) (p1 : Draft) :
    SessState × Resp :=
  match missingSlot p1 with
  | some slot =>
    let p2 := { p1 with pendingSlot := some slot }
    let s1 := { s with premium := some p2 }
    let replyText := questionReplyPre ++
      (match questionForSlot slot with | some q => q | none => "null".toList)
    respond (pushMsg s1 assistantRoleS replyText) transcript replyText
      { emptyExtra with premium := some p2 }
  | none =>
    let p2 := if strOptTruthy p1.city then p1 else { p1 with city := some ( "Other".toList) }
    quoteEmit s transcript p2

/-- Embedding of the premium flow of the turn handler: the slot updates
of updatedDraft followed by the continuation of premiumFinish. -/
def premiumStep (s : SessState) (transcript : Str) (newVehicleReq : Bool) :
    SessState × Resp :=
  premiumFinish s transcript (updatedDraft s transcript newVehicleReq)

/-- Embedding of the answering (RAG) path: the LLM collaborator's failure
is thrown after the user message was committed; on success the reply text
is its output and the payload carries the retrieved document ids. -/
def ragStep (s : SessState) (a : TurnArgs) : SessState × Resp :=
  if !a.llmOk then (s, .err500 ( "LLM failed".toList))
  else
    respond (pushMsg s assistantRoleS a.llmText) a.transcript a.llmText
      { emptyExtra with ragDocs := some a.ragIds }

/-- Embedding of the turn handler up to the speech-synthesis call: audio
check, transcription, transcript commit, new-vehicle reset, the
pendingComparison block, intent classification, the fresh-premium-request
reset, and dispatch to the premium flow or the answering path. -/
def turnCore (s0 : SessState) (a : TurnArgs) : SessState × Resp :=
  if !a.audioPresent then (s0, .err400)
  else if !a.sttOk then (s0, .err500 ( "STT failed".toList))
  else
    let transcript := a.transcript
    let s1 := pushMsg s0 userRoleS transcript
    let newVehicleReq := wantsNewVehicle transcript
    let s2 :=
      if newVehicleReq then
        { s1 with lastPremium := none, comparedLevels := [],
                  pendingComparison := none, premium := none }
      else s1
    match pcStep s2 transcript with
    | .inl out => out
    | .inr s3 =>
      let inPremiumFlow := s3.premium.isSome
      let wantsPremium := isPremiumIntent transcript s3
      let newPremiumReq := wantsPremium && !inPremiumFlow && isNewPremiumRequest transcript
      let s4 :=
        if newPremiumReq then
          { s3 with comparedLevels := [], lastPremium := none, pendingComparison := none }
        else s3
      if inPremiumFlow || wantsPremium then premiumStep s4 transcript newVehicleReq
      else ragStep s4 a

/-- Application of the speech-synthesis outcome: every successful path
responds through the synthesis call, whose failure is thrown after all
state mutations of the turn. -/
def applyTTS (ttsOk : Bool) (out : SessState × Resp) : SessState × Resp :=
  (out.1,
   match out.2 with
   | .ok t r e => if ttsOk then .ok t r e else .err500 ( "TTS failed".toList)
   | r => r)

/-- One full turn of the handler, given the session state, the
collaborator inputs and the synthesis outcome. -/
def turn (s0 : SessState) (a : TurnArgs) (ttsOk : Bool) : SessState × Resp :=
  applyTTS ttsOk (turnCore s0 a)

/-- Projection of a response to its quote payload. -/
def respPremiumQuote : Resp → Option Quote
  | .ok _ _ e => e.premiumResult
  | _ => none

/-- Projection of a response to its pending-draft payload. -/
def respPremiumDraft : Resp → Option Draft
  | .ok _ _ e => e.premium
  | _ => none

/-- Projection of a successful response to its payload record. -/
def respOkExtra : Resp → Option Extra
  | .ok _ _ e => some e
  | _ => none

/-- Number of present optional payload fields of a response. -/
def extraPresentCount (e : Extra) : Nat :=
  (if e.premium.isSome then 1 else 0) + (if e.premiumResult.isSome then 1 else 0) +
  (if e.ragDocs.isSome then 1 else 0)

/-- Canonical Slovenian ones words (0 to 9), first spelling of each table
entry of the parser. -/
def slOnesWord : Nat → Str
  | 0 => "nič".toList
  | 1 => "ena".toList
  | 2 => "dva".toList
  | 3 => "tri".toList
  | 4 => "štiri".toList
  | 5 => "pet".toList
  | 6 => "šest".toList
  | 7 => "sedem".toList
  | 8 => "osem".toList
  | _ => "devet".toList

/-- Canonical Slovenian teens words (10 to 19), indexed from zero. -/
def slTeensWord : Nat → Str
  | 0 => "deset".toList
  | 1 => "enajst".toList
  | 2 => "dvanajst".toList
  | 3 => "trinajst".toList
  | 4 => "štirinajst".toList
  | 5 => "petnajst".toList
  | 6 => "šestnajst".toList
  | 7 => "sedemnajst".toList
  | 8 => "osemnajst".toList
  | _ => "devetnajst".toList

/-- Canonical Slovenian tens words (20 to 90), indexed by the tens digit. -/
def slTensWord : Nat → Str
  | 2 => "dvajset".toList
  | 3 => "trideset".toList
  | 4 => "štirideset".toList
  | 5 => "petdeset".toList
  | 6 => "šestdeset".toList
  | 7 => "sedemdeset".toList
  | 8 => "osemdeset".toList
  | _ => "devetdeset".toList

/-- Canonical Slovenian word form of a number below 100: ones, teens,
round tens, and the concatenated ones-in-tens compound. -/
def slCanonical (n : Nat) : Str :=
  if n < 10 then slOnesWord n
  else if n < 20 then slTeensWord (n - 10)
  else if n % 10 = 0 then slTensWord (n / 10)
  else slOnesWord (n % 10) ++ ( "in".toList) ++ slTensWord (n / 10)

/-- The documented spelling variants of the parser tables (diacritic-free
and dictation variants) with their values. -/
def slVariantPairs : List (Str × Nat) :=
  [( "nic".toList, 0), ( "nula".toList, 0), ( "en".toList, 1), ( "eno".toList, 1),
   ( "dve".toList, 2), ( "stiri".toList, 4), ( "sest".toList, 6),
   ( "stirinajst".toList, 14), ( "sestnajst".toList, 16),
   ( "stirideset".toList, 40), ( "petindeset".toList, 50),
   ( "sestdeset".toList, 60), ( "šezdeset".toList, 60), ( "sezdeset".toList, 60),
   ( "sestindeset".toList, 60), ( "sedemindeset".toList, 70),
   ( "osemindeset".toList, 80), ( "devetindeset".toList, 90)]

set_option maxRecDepth 4000 in

/-! ## Supporting lemmas -/

/-- Mapping a character function over both pattern and string preserves a
successful literal drop. -/
theorem dropLit_map (f : Char → Char) :
    ∀ (p s r : Str), dropLit p s = some r → dropLit (p.map f) (s.map f) = some (r.map f) := by
  intro p
  induction p with
  | nil =>
    intro s r h
    simp only [dropLit] at h
    cases h
    simp [dropLit]
  | cons c p ih =>
    intro s r h
    cases s with
    | nil => simp [dropLit] at h
    | cons d s =>
      by_cases hcd : c = d
      · subst hcd
        simp only [dropLit, if_pos rfl] at h
        simpa [dropLit] using ih s r h
      · simp [dropLit, hcd] at h

/-- Mapping a character function over both string and pattern preserves
substring containment. -/
theorem containsStr_map (f : Char → Char) :
    ∀ (s p : Str), containsStr s p = true → containsStr (s.map f) (p.map f) = true := by
  intro s
  induction s with
  | nil =>
    intro p h
    simp only [containsStr, List.isEmpty_iff] at h
    subst h
    simp [containsStr]
  | cons c rest ih =>
    intro p h
    simp only [containsStr, Bool.or_eq_true, Option.isSome_iff_exists] at h
    rcases h with ⟨r, hr⟩ | h
    · have := dropLit_map f p (c :: rest) r hr
      simp only [containsStr, Bool.or_eq_true, Option.isSome_iff_exists]
      exact Or.inl ⟨r.map f, by simpa using this⟩
    · simp only [containsStr, Bool.or_eq_true]
      exact Or.inr (ih p h)

/-- Fall-through of the comparison block leaves the transcript, the
compared set and the prefill cache untouched. -/
theorem pcStep_inr_fields (s : SessState) (tr : Str) (s' : SessState)
    (h : pcStep s tr = .inr s') :
    s'.messages = s.messages ∧ s'.comparedLevels = s.comparedLevels ∧
    s'.lastPremium = s.lastPremium := by
  unfold pcStep at h
  rcases hc : s.pendingComparison with _ | opts <;> rw [hc] at h
  · injection h with h2; subst h2; exact ⟨rfl, rfl, rfl⟩
  · dsimp only at h
    split_ifs at h
    all_goals (injection h with h2; subst h2; exact ⟨rfl, rfl, rfl⟩)

/-- Early responses of the comparison block carry the empty payload and
leave the compared set and the prefill cache untouched. -/
theorem pcStep_inl_fields (s : SessState) (tr : Str) (out : SessState × Resp)
    (h : pcStep s tr = .inl out) :
    (∃ t r, out.2 = .ok t r emptyExtra) ∧
    out.1.comparedLevels = s.comparedLevels ∧ out.1.lastPremium = s.lastPremium := by
  unfold pcStep at h
  rcases hc : s.pendingComparison with _ | opts <;> rw [hc] at h
  · simp at h
  · dsimp only at h
    split_ifs at h
    all_goals (injection h with h2; subst h2; exact ⟨⟨_, _, rfl⟩, rfl, rfl⟩)

/-- Membership after set insertion. -/
theorem mem_jsSetAdd_self (l : List Str) (x : Str) : x ∈ jsSetAdd l x := by
  unfold jsSetAdd
  split
  · next hcon => exact List.mem_of_elem_eq_true (by simpa [List.contains] using hcon)
  · exact List.mem_append_right _ (List.mem_singleton.mpr rfl)

/-- Insertion only extends the set. -/
theorem subset_jsSetAdd (l : List Str) (x : Str) : l ⊆ jsSetAdd l x := by
  unfold jsSetAdd
  split
  · exact fun _ hy => hy
  · exact fun _ hy => List.mem_append_left _ hy

/-- Insertion adds nothing but the inserted element. -/
theorem mem_jsSetAdd (l : List Str) (x y : Str) :
    y ∈ jsSetAdd l x ↔ y ∈ l ∨ y = x := by
  unfold jsSetAdd
  split
  · next hcon =>
    constructor
    · exact fun hy => Or.inl hy
    · rintro (hy | rfl)
      · exact hy
      · exact List.mem_of_elem_eq_true (by simpa [List.contains] using hcon)
  · simp

/-- Insertion preserves freedom from duplicates. -/
theorem nodup_jsSetAdd (l : List Str) (x : Str) (h : l.Nodup) :
    (jsSetAdd l x).Nodup := by
  unfold jsSetAdd
  split
  · exact h
  · next hcon =>
    refine List.Nodup.append h (List.nodup_singleton x) ?_
    intro a ha hb
    rw [List.mem_singleton] at hb
    subst hb
    exact absurd (List.elem_eq_true_of_mem ha) (by simpa [List.contains] using hcon)

/-- A false containment test means absence. -/
theorem not_mem_of_contains_eq_false {l : List Str} {x : Str}
    (h : l.contains x = false) : x ∉ l := by
  intro hm
  rw [show l.contains x = l.elem x from rfl, List.elem_eq_true_of_mem hm] at h
  cases h



/-- Variant of the absence lemma for negated containment tests. -/
theorem not_mem_of_not_contains {l : List Str} {x : Str}
    (h : (!(l.contains x)) = true) : x ∉ l :=
  not_mem_of_contains_eq_false (by simpa using h)

/-- A quote-emitting step adds the quoted tier to the compared set,
offers only tiers outside the updated set, and stores the draft's vehicle
fields as the new prefill cache. -/
theorem quoteEmit_quote (s : SessState) (tr : Str) (p2 : Draft) (q : Quote)
    (h : respPremiumQuote (quoteEmit s tr p2).2 = some q) :
    (∃ c, (quoteEmit s tr p2).1.comparedLevels = jsSetAdd s.comparedLevels c ∧
      c ∈ (quoteEmit s tr p2).1.comparedLevels ∧
      ∀ opts, (quoteEmit s tr p2).1.pendingComparison = some opts →
        ∀ o ∈ opts, o ∉ (quoteEmit s tr p2).1.comparedLevels) ∧
    (quoteEmit s tr p2).1.lastPremium =
      some { vehicleAge := p2.vehicleAge, horsepower := p2.horsepower, city := p2.city } := by
  rcases hqe : quoteEmit s tr p2 with ⟨st, rsp⟩
  rw [hqe] at h
  dsimp only at h ⊢
  unfold quoteEmit at hqe
  split at hqe
  · rw [Prod.mk.injEq] at hqe
    obtain ⟨hst, hrsp⟩ := hqe
    rw [← hrsp] at h
    simp [respPremiumQuote] at h
  · next result heq =>
    simp only [respond] at hqe
    rw [Prod.mk.injEq] at hqe
    obtain ⟨hst, hrsp⟩ := hqe
    subst hst
    simp only [pushMsg]
    constructor
    · refine ⟨(match p2.coverageLevel with | some c => c | none => []), rfl,
        mem_jsSetAdd_self _ _, ?_⟩
      intro opts hopts o ho
      split_ifs at hopts
      all_goals injection hopts with hopts
      all_goals subst hopts
      all_goals simp only [List.mem_append, List.mem_singleton, List.not_mem_nil,
        or_false, false_or] at ho
      all_goals rcases ho with rfl | rfl
      all_goals exact not_mem_of_not_contains (by assumption)
    · trivial

/-- The calculator throws only one of its three validation messages. -/
theorem calculate_premium_error_msgs (va hp : JSNum) (city cov : Option Str) (msg : Str)
    (h : calculate_premium va hp city cov = .error msg) :
    msg = "vehicleAge must be a non-negative number".toList ∨
    msg = "horsepower must be a positive number".toList ∨
    msg = "coverageLevel is required".toList := by
  unfold calculate_premium at h
  cases va <;> cases hp <;> simp only [JSNum.finQ?] at h <;> try split_ifs at h
  all_goals injection h with h
  all_goals subst h
  all_goals
    first
      | exact Or.inl rfl
      | exact Or.inr (Or.inl rfl)
      | exact Or.inr (Or.inr rfl)

/-- A quote-emitting step never returns a pending-draft payload. -/
theorem quoteEmit_draft_none (s : SessState) (tr : Str) (p2 : Draft) :
    respPremiumDraft (quoteEmit s tr p2).2 = none := by
  rcases hqe : quoteEmit s tr p2 with ⟨st, rsp⟩
  unfold quoteEmit at hqe
  split at hqe
  all_goals simp only [respond] at hqe
  all_goals rw [Prod.mk.injEq] at hqe
  all_goals obtain ⟨hst, hrsp⟩ := hqe
  all_goals rw [← hrsp]
  all_goals simp [respPremiumDraft, emptyExtra]

/-- Payloads of a quote-emitting step carry at most one field. -/
theorem quoteEmit_extra (s : SessState) (tr : Str) (p2 : Draft) (e : Extra)
    (h : respOkExtra (quoteEmit s tr p2).2 = some e) : extraPresentCount e ≤ 1 := by
  rcases hqe : quoteEmit s tr p2 with ⟨st, rsp⟩
  rw [hqe] at h
  dsimp only at h
  unfold quoteEmit at hqe
  split at hqe
  all_goals simp only [respond] at hqe
  all_goals rw [Prod.mk.injEq] at hqe
  all_goals obtain ⟨hst, hrsp⟩ := hqe
  all_goals rw [← hrsp] at h
  · simp [respOkExtra] at h
  · simp only [respOkExtra, Option.some.injEq] at h
    subst h
    simp [extraPresentCount, emptyExtra]

/-- The compared set after a quote-emitting step either is unchanged or
gains exactly the quoted tier. -/
theorem quoteEmit_compared (s : SessState) (tr : Str) (p2 : Draft) :
    (quoteEmit s tr p2).1.comparedLevels = s.comparedLevels ∨
    ∃ c, (quoteEmit s tr p2).1.comparedLevels = jsSetAdd s.comparedLevels c := by
  rcases hqe : quoteEmit s tr p2 with ⟨st, rsp⟩
  dsimp only
  unfold quoteEmit at hqe
  split at hqe
  all_goals simp only [respond] at hqe
  all_goals rw [Prod.mk.injEq] at hqe
  all_goals obtain ⟨hst, hrsp⟩ := hqe
  all_goals rw [← hst]
  · exact Or.inl rfl
  · exact Or.inr ⟨_, rfl⟩

/-- An internal error of a quote-emitting step is a calculator message,
and the turn's transcript and comparison fields were already committed. -/
theorem quoteEmit_error (s : SessState) (tr : Str) (p2 : Draft) (msg : Str)
    (h : (quoteEmit s tr p2).2 = .err500 msg) :
    (msg = "vehicleAge must be a non-negative number".toList ∨
     msg = "horsepower must be a positive number".toList ∨
     msg = "coverageLevel is required".toList) ∧
    (quoteEmit s tr p2).1.messages = s.messages ∧
    (quoteEmit s tr p2).1.comparedLevels = s.comparedLevels ∧
    (quoteEmit s tr p2).1.pendingComparison = s.pendingComparison ∧
    (quoteEmit s tr p2).1.lastPremium = s.lastPremium := by
  rcases hqe : quoteEmit s tr p2 with ⟨st, rsp⟩
  rw [hqe] at h
  dsimp only at h ⊢
  unfold quoteEmit at hqe
  split at hqe
  · next msg2 heq =>
    rw [Prod.mk.injEq] at hqe
    obtain ⟨hst, hrsp⟩ := hqe
    rw [← hrsp] at h
    injection h with h
    subst h
    rw [← hst]
    exact ⟨calculate_premium_error_msgs _ _ _ _ _ heq, rfl, rfl, rfl, rfl⟩
  · simp only [respond] at hqe
    rw [Prod.mk.injEq] at hqe
    obtain ⟨hst, hrsp⟩ := hqe
    rw [← hrsp] at h
    cases h

/-- When the premium flow returns a quote, the quoted tier joined the
compared set exactly once, the offered options avoid the updated set, and
the stored prefill cache has a set city (defaulted to Other when the
updated draft had none). -/
theorem premiumFinish_quote (s : SessState) (tr : Str) (p1 : Draft) (q : Quote)
    (h : respPremiumQuote (premiumFinish s tr p1).2 = some q) :
    (∃ c, (premiumFinish s tr p1).1.comparedLevels = jsSetAdd s.comparedLevels c ∧
      c ∈ (premiumFinish s tr p1).1.comparedLevels ∧
      ∀ opts, (premiumFinish s tr p1).1.pendingComparison = some opts →
        ∀ o ∈ opts, o ∉ (premiumFinish s tr p1).1.comparedLevels) ∧
    (∃ lp, (premiumFinish s tr p1).1.lastPremium = some lp ∧
      strOptTruthy lp.city = true ∧
      (p1.city = none → lp.city = some ( "Other".toList))) := by
  unfold premiumFinish at h ⊢
  cases hms : missingSlot p1 with
  | some slot =>
    simp [hms, respond, respPremiumDraft, respPremiumQuote, emptyExtra] at h
  | none =>
    simp only [hms] at h ⊢
    obtain ⟨h1, h2⟩ := quoteEmit_quote s tr _ q h
    refine ⟨h1, ⟨_, h2, ?_, ?_⟩⟩
    · by_cases hc : strOptTruthy p1.city = true
      · simp [hc]
      · simp only [Bool.not_eq_true] at hc
        simp only [hc]
        rfl
    · intro hnone
      have hc : strOptTruthy p1.city = false := by rw [hnone]; rfl
      simp only [hc]
      rfl

/-- When the premium flow asks a slot question, the payload draft's
pending slot is exactly the priority missing slot of that draft, and the
comparison fields and prefill cache are untouched. -/
theorem premiumFinish_question (s : SessState) (tr : Str) (p1 : Draft) (d : Draft)
    (h : respPremiumDraft (premiumFinish s tr p1).2 = some d) :
    d.pendingSlot = missingSlot d ∧ missingSlot d ≠ none ∧
    (premiumFinish s tr p1).1.comparedLevels = s.comparedLevels ∧
    (premiumFinish s tr p1).1.pendingComparison = s.pendingComparison ∧
    (premiumFinish s tr p1).1.lastPremium = s.lastPremium := by
  unfold premiumFinish at h ⊢
  cases hms : missingSlot p1 with
  | some slot =>
    simp only [hms] at h ⊢
    simp only [respond, respPremiumDraft, Option.some.injEq] at h
    subst h
    refine ⟨?_, ?_, rfl, rfl, rfl⟩
    · show some slot = missingSlot { p1 with pendingSlot := some slot }
      rw [show missingSlot { p1 with pendingSlot := some slot } = missingSlot p1 from rfl, hms]
    · rw [show missingSlot { p1 with pendingSlot := some slot } = missingSlot p1 from rfl, hms]
      simp
  | none =>
    simp only [hms] at h
    rw [quoteEmit_draft_none] at h
    cases h

/-- Payloads of the premium flow carry at most one field. -/
theorem premiumFinish_extra (s : SessState) (tr : Str) (p1 : Draft) (e : Extra)
    (h : respOkExtra (premiumFinish s tr p1).2 = some e) : extraPresentCount e ≤ 1 := by
  unfold premiumFinish at h
  cases hms : missingSlot p1 with
  | some slot =>
    simp only [hms, respond, respOkExtra, Option.some.injEq] at h
    subst h
    simp [extraPresentCount, emptyExtra]
  | none =>
    simp only [hms] at h
    exact quoteEmit_extra _ _ _ _ h

/-- The compared set after the premium flow either is unchanged or gains
exactly the quoted tier. -/
theorem premiumFinish_compared (s : SessState) (tr : Str) (p1 : Draft) :
    (premiumFinish s tr p1).1.comparedLevels = s.comparedLevels ∨
    ∃ c, (premiumFinish s tr p1).1.comparedLevels = jsSetAdd s.comparedLevels c := by
  unfold premiumFinish
  cases hms : missingSlot p1 with
  | some slot => simp only [hms]; exact Or.inl rfl
  | none => simp only [hms]; exact quoteEmit_compared s tr _

/-- An internal error of the premium flow carries a calculator message,
and the transcript and comparison fields stay as committed before it. -/
theorem premiumFinish_error (s : SessState) (tr : Str) (p1 : Draft) (msg : Str)
    (h : (premiumFinish s tr p1).2 = .err500 msg) :
    (msg = "vehicleAge must be a non-negative number".toList ∨
     msg = "horsepower must be a positive number".toList ∨
     msg = "coverageLevel is required".toList) ∧
    (premiumFinish s tr p1).1.messages = s.messages ∧
    (premiumFinish s tr p1).1.comparedLevels = s.comparedLevels ∧
    (premiumFinish s tr p1).1.pendingComparison = s.pendingComparison ∧
    (premiumFinish s tr p1).1.lastPremium = s.lastPremium := by
  unfold premiumFinish at h ⊢
  cases hms : missingSlot p1 with
  | some slot =>
    simp [hms, respond] at h
  | none =>
    simp only [hms] at h ⊢
    exact quoteEmit_error s tr _ msg h

/-- An answering-collaborator failure responds with the internal error
while keeping the state already committed. -/
theorem ragStep_llm_fail (s : SessState) (a : TurnArgs) (h : a.llmOk = false) :
    ragStep s a = (s, .err500 ( "LLM failed".toList)) := by
  unfold ragStep
  rw [h]
  rfl

/-- A successful answering path commits the assistant reply and responds
with the retrieved document ids as the only payload. -/
theorem ragStep_llm_ok (s : SessState) (a : TurnArgs) (h : a.llmOk = true) :
    ragStep s a = (pushMsg s assistantRoleS a.llmText,
      .ok a.transcript a.llmText { emptyExtra with ragDocs := some a.ragIds }) := by
  unfold ragStep
  rw [h]
  rfl

/-- Shape of a turn up to the synthesis call: a client error, a
transcription error, an early comparison-block response, or dispatch to
the premium flow or the answering path, through an intermediate state
whose transcript gained exactly the user utterance and whose compared set
is either kept or reset. -/
theorem turnCore_shape (s : SessState) (a : TurnArgs) :
    turnCore s a = (s, .err400) ∨
    turnCore s a = (s, .err500 ( "STT failed".toList)) ∨
    ∃ s2, (s2.messages = s.messages ++ [(userRoleS, a.transcript)] ∧
           (s2.comparedLevels = s.comparedLevels ∨ s2.comparedLevels = []) ∧
           (wantsNewVehicle a.transcript = false → s2.comparedLevels = s.comparedLevels)) ∧
      ((∃ out, pcStep s2 a.transcript = .inl out ∧ turnCore s a = out) ∨
       (∃ s3 s4, pcStep s2 a.transcript = .inr s3 ∧
         s4.messages = s3.messages ∧
         (s4.comparedLevels = s3.comparedLevels ∨ s4.comparedLevels = []) ∧
         (isNewPremiumRequest a.transcript = false → s4.comparedLevels = s3.comparedLevels) ∧
         (turnCore s a = premiumFinish s4 a.transcript
            (updatedDraft s4 a.transcript (wantsNewVehicle a.transcript)) ∨
          turnCore s a = ragStep s4 a))) := by
  by_cases haud : a.audioPresent = true
  case neg =>
    left
    unfold turnCore
    simp only [Bool.not_eq_true] at haud
    simp [haud]
  case pos =>
  by_cases hstt : a.sttOk = true
  case neg =>
    right; left
    unfold turnCore
    simp only [Bool.not_eq_true] at hstt
    simp [haud, hstt]
  case pos =>
    right; right
    refine ⟨(if wantsNewVehicle a.transcript then
        { pushMsg s userRoleS a.transcript with
            lastPremium := none, comparedLevels := [], pendingComparison := none, premium := none }
      else pushMsg s userRoleS a.transcript), ⟨?_, ?_, ?_⟩, ?_⟩
    · split_ifs <;> rfl
    · split_ifs
      · exact Or.inr rfl
      · exact Or.inl rfl
    · intro h
      rw [if_neg (by simp [h])]
      rfl
    · have hcore : turnCore s a =
        (match pcStep (if wantsNewVehicle a.transcript then
            { pushMsg s userRoleS a.transcript with
                lastPremium := none, comparedLevels := [], pendingComparison := none,
                premium := none }
          else pushMsg s userRoleS a.transcript) a.transcript with
         | .inl out => out
         | .inr s3 =>
           if s3.premium.isSome || isPremiumIntent a.transcript s3 then
             premiumStep
               (if (isPremiumIntent a.transcript s3 && !s3.premium.isSome &&
                    isNewPremiumRequest a.transcript) then
                  { s3 with comparedLevels := [], lastPremium := none, pendingComparison := none }
                else s3)
               a.transcript (wantsNewVehicle a.transcript)
           else
             ragStep
               (if (isPremiumIntent a.transcript s3 && !s3.premium.isSome &&
                    isNewPremiumRequest a.transcript) then
                  { s3 with comparedLevels := [], lastPremium := none, pendingComparison := none }
                else s3)
               a) := by
        unfold turnCore
        simp [haud, hstt, pushMsg]
      rcases hpc : pcStep (if wantsNewVehicle a.transcript then
          { pushMsg s userRoleS a.transcript with
              lastPremium := none, comparedLevels := [], pendingComparison := none,
              premium := none }
        else pushMsg s userRoleS a.transcript) a.transcript with out | s3
      · left
        refine ⟨out, rfl, ?_⟩
        rw [hcore]
        simp only [hpc]
      · right
        refine ⟨s3, (if (isPremiumIntent a.transcript s3 && !s3.premium.isSome &&
            isNewPremiumRequest a.transcript) then
              { s3 with comparedLevels := [], lastPremium := none, pendingComparison := none }
            else s3), rfl, ?_, ?_, ?_, ?_⟩
        · split_ifs <;> rfl
        · split_ifs
          · exact Or.inr rfl
          · exact Or.inl rfl
        · intro h
          rw [if_neg (by simp [h])]
        · rw [hcore]
          simp only [hpc]
          by_cases hb : (s3.premium.isSome || isPremiumIntent a.transcript s3) = true
          · left
            rw [if_pos hb]
            rfl
          · right
            rw [if_neg hb]

/-- The state component of a turn does not depend on the synthesis outcome. -/
theorem applyTTS_fst (b : Bool) (out : SessState × Resp) : (applyTTS b out).1 = out.1 := rfl

/-- A quote payload after the synthesis step was already there before it. -/
theorem respPremiumQuote_applyTTS (b : Bool) (out : SessState × Resp) (q : Quote)
    (h : respPremiumQuote (applyTTS b out).2 = some q) :
    respPremiumQuote out.2 = some q := by
  cases hr : out.2 with
  | ok t r e =>
    simp only [applyTTS, hr] at h
    cases b
    · simp [respPremiumQuote] at h
    · simpa [respPremiumQuote] using h
  | err400 =>
    simp only [applyTTS, hr, respPremiumQuote] at h
    cases h
  | err500 m =>
    simp only [applyTTS, hr, respPremiumQuote] at h
    cases h

/-- A pending-draft payload after the synthesis step was already there
before it. -/
theorem respPremiumDraft_applyTTS (b : Bool) (out : SessState × Resp) (d : Draft)
    (h : respPremiumDraft (applyTTS b out).2 = some d) :
    respPremiumDraft out.2 = some d := by
  cases hr : out.2 with
  | ok t r e =>
    simp only [applyTTS, hr] at h
    cases b
    · simp [respPremiumDraft] at h
    · simpa [respPremiumDraft] using h
  | err400 =>
    simp only [applyTTS, hr, respPremiumDraft] at h
    cases h
  | err500 m =>
    simp only [applyTTS, hr, respPremiumDraft] at h
    cases h

/-- A successful payload after the synthesis step was already the payload
before it. -/
theorem respOkExtra_applyTTS (b : Bool) (out : SessState × Resp) (e : Extra)
    (h : respOkExtra (applyTTS b out).2 = some e) :
    respOkExtra out.2 = some e := by
  cases hr : out.2 with
  | ok t r ex =>
    simp only [applyTTS, hr] at h
    cases b
    · simp [respOkExtra] at h
    · simpa [respOkExtra] using h
  | err400 =>
    simp only [applyTTS, hr, respOkExtra] at h
    cases h
  | err500 m =>
    simp only [applyTTS, hr, respOkExtra] at h
    cases h

/-- A member of a duplicate-free list is counted exactly once. -/
theorem count_one_of_nodup_mem {c : Str} {l : List Str} (hn : l.Nodup) (hm : c ∈ l) :
    l.count c = 1 := by
  induction l with
  | nil => cases hm
  | cons a t ih =>
    have hn2 := List.nodup_cons.mp hn
    rcases List.mem_cons.mp hm with heq | hmt
    · subst heq
      rw [List.count_cons_self, List.count_eq_zero.mpr hn2.1]
    · have hne : c ≠ a := by
        rintro rfl
        exact hn2.1 hmt
      rw [List.count_cons_of_ne hne, ih hn2.2 hmt]

/-- C7: a turn keeps the compared set free of duplicates; outside the
new-vehicle and fresh-request resets no tier is ever removed; and a turn
that returns a quote leaves the compared set equal to the set-insertion of
the quoted tier into the prior set (or into the freshly reset empty set),
so that tier appears exactly once, and every tier offered in the pending
comparison lies outside the updated set. -/
theorem claim7_compared_discipline (s : SessState) (a : TurnArgs) (ttsOk : Bool)
    (hnd : s.comparedLevels.Nodup) :
    (turn s a ttsOk).1.comparedLevels.Nodup ∧
    (wantsNewVehicle a.transcript = false → isNewPremiumRequest a.transcript = false →
      ∀ x ∈ s.comparedLevels, x ∈ (turn s a ttsOk).1.comparedLevels) ∧
    (∀ q, respPremiumQuote (turn s a ttsOk).2 = some q →
      ∃ base c, (base = s.comparedLevels ∨ base = []) ∧
        (turn s a ttsOk).1.comparedLevels = jsSetAdd base c ∧
        (turn s a ttsOk).1.comparedLevels.count c = 1 ∧
        ∀ opts, (turn s a ttsOk).1.pendingComparison = some opts →
          ∀ o ∈ opts, o ∉ (turn s a ttsOk).1.comparedLevels) := by
  have ht1 : (turn s a ttsOk).1 = (turnCore s a).1 := rfl
  rcases turnCore_shape s a with hsh | hsh | ⟨s2, ⟨hm2, hc2, hc2w⟩, hrest⟩
  · rw [ht1, hsh]
    refine ⟨hnd, fun _ _ x hx => hx, fun q hq => ?_⟩
    have hq' := respPremiumQuote_applyTTS ttsOk (turnCore s a) q hq
    rw [hsh] at hq'
    simp [respPremiumQuote] at hq'
  · rw [ht1, hsh]
    refine ⟨hnd, fun _ _ x hx => hx, fun q hq => ?_⟩
    have hq' := respPremiumQuote_applyTTS ttsOk (turnCore s a) q hq
    rw [hsh] at hq'
    simp [respPremiumQuote] at hq'
  · rcases hrest with ⟨out, hpc, hcore⟩ | ⟨s3, s4, hpc, hm4, hc4, hc4w, hdisp⟩
    · obtain ⟨⟨t, r, hout2⟩, houtc, -⟩ := pcStep_inl_fields s2 a.transcript out hpc
      rw [ht1, hcore]
      have hcl : out.1.comparedLevels = s.comparedLevels ∨ out.1.comparedLevels = [] := by
        rw [houtc]
        exact hc2
      refine ⟨?_, ?_, fun q hq => ?_⟩
      · rcases hcl with h | h <;> rw [h]
        · exact hnd
        · exact List.nodup_nil
      · intro hw hn x hx
        rw [houtc, hc2w hw]
        exact hx
      · have hq' := respPremiumQuote_applyTTS ttsOk (turnCore s a) q hq
        rw [hcore, hout2] at hq'
        simp [respPremiumQuote, emptyExtra] at hq'
    · obtain ⟨hm3, hc3, hl3⟩ := pcStep_inr_fields s2 a.transcript s3 hpc
      have hc4k : s4.comparedLevels = s.comparedLevels ∨ s4.comparedLevels = [] := by
        rcases hc4 with h | h
        · rw [h, hc3]
          exact hc2
        · exact Or.inr h
      have hnd4 : s4.comparedLevels.Nodup := by
        rcases hc4k with h | h <;> rw [h]
        · exact hnd
        · exact List.nodup_nil
      have heqw : wantsNewVehicle a.transcript = false →
          isNewPremiumRequest a.transcript = false →
          s4.comparedLevels = s.comparedLevels := by
        intro hw hn
        rw [hc4w hn, hc3, hc2w hw]
      rcases hdisp with hco | hco
      · rw [ht1, hco]
        have hcmp := premiumFinish_compared s4 a.transcript
          (updatedDraft s4 a.transcript (wantsNewVehicle a.transcript))
        refine ⟨?_, ?_, fun q hq => ?_⟩
        · rcases hcmp with h | ⟨c, h⟩ <;> rw [h]
          · exact hnd4
          · exact nodup_jsSetAdd _ _ hnd4
        · intro hw hn x hx
          have hx4 : x ∈ s4.comparedLevels := by
            rw [heqw hw hn]
            exact hx
          rcases hcmp with h | ⟨c, h⟩ <;> rw [h]
          · exact hx4
          · exact subset_jsSetAdd _ _ hx4
        · have hq' := respPremiumQuote_applyTTS ttsOk (turnCore s a) q hq
          rw [hco] at hq'
          obtain ⟨⟨c, hcl, hmem, hdisj⟩, -⟩ := premiumFinish_quote s4 a.transcript _ q hq'
          refine ⟨s4.comparedLevels, c, hc4k, hcl, ?_, hdisj⟩
          rw [hcl]
          exact count_one_of_nodup_mem (nodup_jsSetAdd _ _ hnd4) (by rw [← hcl]; exact hmem)
      · have hrag1 : (ragStep s4 a).1.comparedLevels = s4.comparedLevels := by
          cases hll : a.llmOk
          · rw [ragStep_llm_fail s4 a hll]
          · rw [ragStep_llm_ok s4 a hll]
            rfl
        rw [ht1, hco]
        refine ⟨?_, ?_, fun q hq => ?_⟩
        · rw [hrag1]
          exact hnd4
        · intro hw hn x hx
          rw [hrag1, heqw hw hn]
          exact hx
        · have hq' := respPremiumQuote_applyTTS ttsOk (turnCore s a) q hq
          rw [hco] at hq'
          cases hll : a.llmOk
          · rw [ragStep_llm_fail s4 a hll] at hq'
            simp [respPremiumQuote] at hq'
          · rw [ragStep_llm_ok s4 a hll] at hq'
            simp [respPremiumQuote, emptyExtra] at hq'

/-- Witness for claim7_compared_discipline on the initial session and an
empty utterance. -/
theorem claim7_compared_discipline_witness :
    (turn initSession
      { audioPresent := true, sttOk := true, transcript := [], llmOk := true,
        llmText := [], ragIds := [] } true).1.comparedLevels.Nodup :=
  (claim7_compared_discipline initSession
    { audioPresent := true, sttOk := true, transcript := [], llmOk := true,
      llmText := [], ragIds := [] } true (by decide)).1

/-- C2 counterexample: a turn whose synthesis collaborator fails returns
the internal error, yet the returned session state differs from the
pre-turn state — the compared-set update of the completed quote was
already committed. -/
theorem claim2_counterexample :
    (turn initSession
      { audioPresent := true, sttOk := true,
        transcript := ( "star 10 let, 100 konjev, polni kasko cena".toList),
        llmOk := true, llmText := [], ragIds := [] } false).2 =
      .err500 ( "TTS failed".toList) ∧
    (turn initSession
      { audioPresent := true, sttOk := true,
        transcript := ( "star 10 let, 100 konjev, polni kasko cena".toList),
        llmOk := true, llmText := [], ragIds := [] } false).1.comparedLevels ≠
      initSession.comparedLevels := by
  constructor
  · decide
  · decide

/-- C2 as amended: the session state of a turn never depends on the
synthesis outcome, and when the turn had reached a successful response the
synthesis failure only swaps that response for the internal error while
every state mutation of the turn remains committed. -/
theorem claim2_no_rollback (s : SessState) (a : TurnArgs) (ttsOk : Bool) :
    (turn s a ttsOk).1 = (turn s a true).1 ∧
    (∀ t r e, (turnCore s a).2 = .ok t r e →
      (turn s a false).2 = .err500 ( "TTS failed".toList) ∧
      (turn s a false).1 = (turnCore s a).1) := by
  refine ⟨rfl, fun t r e h => ⟨?_, rfl⟩⟩
  show (applyTTS false (turnCore s a)).2 = _
  simp [applyTTS, h]

/-- Witness for claim2_no_rollback on the initial session and an empty
utterance answered by the LLM. -/
theorem claim2_no_rollback_witness :
    (turn initSession
      { audioPresent := true, sttOk := true, transcript := [], llmOk := true,
        llmText := [], ragIds := [] } false).2 = .err500 ( "TTS failed".toList) ∧
    (turn initSession
      { audioPresent := true, sttOk := true, transcript := [], llmOk := true,
        llmText := [], ragIds := [] } false).1 =
      (turnCore initSession
        { audioPresent := true, sttOk := true, transcript := [], llmOk := true,
          llmText := [], ragIds := [] }).1 :=
  (claim2_no_rollback initSession
    { audioPresent := true, sttOk := true, transcript := [], llmOk := true,
      llmText := [], ragIds := [] } false).2 [] []
    { premium := none, premiumResult := none, ragDocs := some [] } (by decide)

/-- C8: the pending slot follows the fixed priority vehicleAge, then
horsepower, then coverageLevel; the city is never the pending slot; and a
complete draft without a truthy city is quoted with the city defaulted to
Other, while every slot-question payload carries as pending slot exactly
the priority missing slot of its draft. -/
theorem claim8_slot_priority (d : Draft) (s : SessState) (tr : Str) :
    (d.vehicleAge = none → missingSlot d = some ( "vehicleAge".toList)) ∧
    (∀ av, d.vehicleAge = some av → d.horsepower = none →
      missingSlot d = some ( "horsepower".toList)) ∧
    (∀ av hp, d.vehicleAge = some av → d.horsepower = some hp →
      strOptTruthy d.coverageLevel = false →
      missingSlot d = some ( "coverageLevel".toList)) ∧
    (∀ av hp, d.vehicleAge = some av → d.horsepower = some hp →
      strOptTruthy d.coverageLevel = true → missingSlot d = none) ∧
    missingSlot d ≠ some ( "city".toList) ∧
    (missingSlot d = none → strOptTruthy d.city = false →
      premiumFinish s tr d = quoteEmit s tr { d with city := some ( "Other".toList) }) ∧
    (∀ d2, respPremiumDraft (premiumFinish s tr d).2 = some d2 →
      d2.pendingSlot = missingSlot d2 ∧ missingSlot d2 ≠ none) := by
  refine ⟨?_, ?_, ?_, ?_, ?_, ?_, ?_⟩
  · intro h
    simp [missingSlot, h]
  · intro av h hh
    simp [missingSlot, h, hh]
  · intro av hp h hh hc
    simp [missingSlot, h, hh, hc]
  · intro av hp h hh hc
    simp [missingSlot, h, hh, hc]
  · unfold missingSlot
    split_ifs
    · decide
    · decide
    · decide
    · simp
  · intro h hc
    unfold premiumFinish
    rw [h]
    simp [hc]
  · intro d2 h
    obtain ⟨h1, h2, -⟩ := premiumFinish_question s tr d d2 h
    exact ⟨h1, h2⟩

/-- Witness for claim8_slot_priority at the empty draft, whose missing
slot is the vehicle age. -/
theorem claim8_slot_priority_witness :
    missingSlot
      { vehicleAge := none, horsepower := none, city := none,
        coverageLevel := none, pendingSlot := none } = some ( "vehicleAge".toList) :=
  (claim8_slot_priority
    { vehicleAge := none, horsepower := none, city := none,
      coverageLevel := none, pendingSlot := none } initSession []).1 rfl

/-- C9 counterexample: the clarification reply of the comparison block is
a successful response carrying none of the three payload fields, so a
successful turn response need not carry exactly one of them. -/
theorem claim9_counterexample :
    respOkExtra (turn
      { messages := [], premium := none, lastPremium := none,
        comparedLevels := [], pendingComparison := some [delniS, polniS] }
      { audioPresent := true, sttOk := true,
        transcript := ( "delni in polni".toList), llmOk := true,
        llmText := [], ragIds := [] } true).2 = some emptyExtra ∧
    extraPresentCount emptyExtra ≠ 1 := by
  constructor
  · decide
  · decide

/-- C9 as amended: every successful turn response carries at most one of
the three payload fields premium, premiumResult and ragDocs. -/
theorem claim9_at_most_one (s : SessState) (a : TurnArgs) (ttsOk : Bool) (e : Extra)
    (h : respOkExtra (turn s a ttsOk).2 = some e) : extraPresentCount e ≤ 1 := by
  have h2 : respOkExtra (turnCore s a).2 = some e := respOkExtra_applyTTS ttsOk _ e h
  rcases turnCore_shape s a with hsh | hsh | ⟨s2, -, hrest⟩
  · rw [hsh] at h2
    simp [respOkExtra] at h2
  · rw [hsh] at h2
    simp [respOkExtra] at h2
  · rcases hrest with ⟨out, hpc, hcore⟩ | ⟨s3, s4, hpc, -, -, -, hdisp⟩
    · obtain ⟨⟨t, r, hout2⟩, -, -⟩ := pcStep_inl_fields s2 a.transcript out hpc
      rw [hcore, hout2] at h2
      simp only [respOkExtra, Option.some.injEq] at h2
      subst h2
      simp [extraPresentCount, emptyExtra]
    · rcases hdisp with hco | hco
      · rw [hco] at h2
        exact premiumFinish_extra _ _ _ e h2
      · rw [hco] at h2
        cases hll : a.llmOk
        · rw [ragStep_llm_fail s4 a hll] at h2
          simp [respOkExtra] at h2
        · rw [ragStep_llm_ok s4 a hll] at h2
          simp only [respOkExtra, Option.some.injEq] at h2
          subst h2
          simp [extraPresentCount, emptyExtra]

/-- Witness for claim9_at_most_one on an empty utterance answered through
the retrieval path. -/
theorem claim9_at_most_one_witness :
    extraPresentCount { premium := none, premiumResult := none, ragDocs := some [] } ≤ 1 :=
  claim9_at_most_one initSession
    { audioPresent := true, sttOk := true, transcript := [], llmOk := true,
      llmText := [], ragIds := [] } true
    { premium := none, premiumResult := none, ragDocs := some [] } (by decide)

/-- C10: when an utterance contains both the substring polni and the
substring delni, the coverage normaliser and the coverage extractor both
return the full tier: full wins over partial (and basic) when several
tier keywords co-occur. -/
theorem claim10_full_wins (s : Str)
    (h1 : containsStr s ( "polni".toList) = true)
    (_h2 : containsStr s ( "delni".toList) = true) :
    normalizeCoverageLevel s = some polniS ∧
    ∀ wp : Bool, extractCoverageLevel s wp = some polniS := by
  have hl : containsStr (jsLower s) ( "polni".toList) = true := by
    have h := containsStr_map jsLowerChar s ( "polni".toList) h1
    have hfix : ( "polni".toList).map jsLowerChar = ( "polni".toList) := by decide
    simpa [jsLower, hfix] using h
  have hnorm : normalizeCoverageLevel s = some polniS := by
    simp only [normalizeCoverageLevel]
    rw [hl]
    simp
  refine ⟨hnorm, fun wp => ?_⟩
  simp only [extractCoverageLevel]
  rw [hnorm]

/-- Witness for claim10_full_wins at a concrete utterance naming both
tiers. -/
theorem claim10_full_wins_witness :
    normalizeCoverageLevel ( "delni ali polni kasko".toList) = some polniS ∧
    ∀ wp : Bool, extractCoverageLevel ( "delni ali polni kasko".toList) wp = some polniS :=
  claim10_full_wins ( "delni ali polni kasko".toList) (by decide) (by decide)

/-- C4: a word-bounded run of one to four digits in the cleaned input
short-circuits the robust number parser: the parser returns exactly the
value of the (first) such digit run, whatever number words the phrase
also contains. -/
theorem claim4_digit_overrides (t : Str) (n : Nat)
    (h : firstDigitRun (cleanTextForNumber t) = some n) :
    parseSlNumberRobust t = some n := by
  simp only [parseSlNumberRobust]
  rw [h]

/-- Witness for claim4_digit_overrides on a phrase containing both the
digit run 5 and the conflicting number word devet. -/
theorem claim4_digit_overrides_witness :
    firstDigitRun (cleanTextForNumber ( "5 oziroma devet".toList)) = some 5 ∧
    parseSlNumberRobust ( "5 oziroma devet".toList) = some 5 :=
  ⟨by decide, claim4_digit_overrides ( "5 oziroma devet".toList) 5 (by decide)⟩

/-- C1 counterexample: values matched by the explicit unit/keyword
patterns are returned without any range validation, contrary to the
claim.  The star pattern yields an age of 99 (outside 0 to 40) and the
digit-with-unit pattern yields 1000 horsepower (outside 20 to 600) and
10 horsepower (below 20). -/
theorem claim1_counterexample :
    extractVehicleAge ( "star 99".toList) = some 99 ∧ 40 < 99 ∧
    extractHorsepower ( "1000 km".toList) = some 1000 ∧ 600 < 1000 ∧
    extractHorsepower ( "10 km".toList) = some 10 ∧ 10 < 20 := by
  decide

/-- C1 as amended: the range restriction applies exactly to the
numeral-parser fallback of the extractors.  When neither explicit pattern
of the respective extractor matches the cleaned input, a returned age
lies in the range up to 40 (non-negativity is automatic) and a returned
horsepower lies between 20 and 600. -/
theorem claim1_fallback_range :
    (∀ (t : Str) (n : Nat),
      ageUnitMatch (cleanTextForNumber t) = none →
      starMatch (cleanTextForNumber t) = none →
      extractVehicleAge t = some n → n ≤ 40) ∧
    (∀ (t : Str) (n : Nat),
      hpUnitMatch (cleanTextForNumber t) = none →
      mocMatch (cleanTextForNumber t) = none →
      extractHorsepower t = some n → 20 ≤ n ∧ n ≤ 600) := by
  constructor
  · intro t n h1 h2 h3
    simp only [extractVehicleAge, h1, h2] at h3
    rcases hp : parseSlNumberRobust (cleanTextForNumber t) with _ | m
    · rw [hp] at h3; exact absurd h3 (by simp)
    · rw [hp] at h3
      by_cases hm : m ≤ 40
      · simp [hm] at h3; omega
      · simp [hm] at h3
  · intro t n h1 h2 h3
    simp only [extractHorsepower, h1, h2] at h3
    rcases hp : parseSlNumberRobust (cleanTextForNumber t) with _ | m
    · rw [hp] at h3; exact absurd h3 (by simp)
    · rw [hp] at h3
      by_cases hm : (20 ≤ m && m ≤ 600) = true
      · simp [hm] at h3; simp at hm; omega
      · simp [hm] at h3

/-- Witness for claim1_fallback_range at the word inputs devet and sto,
which reach the numeral-parser fallback of each extractor. -/
theorem claim1_fallback_range_witness :
    (extractVehicleAge ( "devet".toList) = some 9 ∧ 9 ≤ 40) ∧
    (extractHorsepower ( "sto".toList) = some 100 ∧ 20 ≤ 100 ∧ 100 ≤ 600) :=
  ⟨⟨by decide, claim1_fallback_range.1 ( "devet".toList) 9 (by decide) (by decide) (by decide)⟩,
   ⟨by decide, claim1_fallback_range.2 ( "sto".toList) 100 (by decide) (by decide) (by decide)⟩⟩

/-- Every city factor is at least one. -/
theorem cityFactorOf_ge_one (c : Str) : 1 ≤ cityFactorOf c := by
  unfold cityFactorOf
  split_ifs <;> norm_num

/-- Strict monotonicity of JS rounding across a gap of at least one. -/
theorem jsRound_lt_of_add_one_le {x y : ℚ} (h : x + 1 ≤ y) : jsRound x < jsRound y := by
  unfold jsRound
  have h1 : ⌊x + 1/2⌋ + 1 = ⌊x + 1/2 + 1⌋ := (Int.floor_add_one (x + 1/2)).symm
  have h2 : ⌊x + 1/2 + 1⌋ ≤ ⌊y + 1/2⌋ := Int.floor_le_floor (by linarith)
  omega

/-- Rounded annual premiums are strictly ordered across coverage factors
at least 27/100 apart, for any factors within the calculator's clamps. -/
theorem annual_tier_lt {A H C f g : ℚ} (hA : 78/100 ≤ A) (hH : 85/100 ≤ H)
    (hC : 1 ≤ C) (hfg : f + 27/100 ≤ g) :
    jsRound (220 * A * H * C * f) < jsRound (220 * A * H * C * g) := by
  apply jsRound_lt_of_add_one_le
  have h1 : (0:ℚ) < A := lt_of_lt_of_le (by norm_num) hA
  have h2 : (0:ℚ) < H := lt_of_lt_of_le (by norm_num) hH
  have hAH : (78/100 : ℚ) * (85/100) ≤ A * H :=
    mul_le_mul hA hH (by norm_num) (le_of_lt h1)
  have hP : (7293/50 : ℚ) ≤ 220 * A * H * C := by nlinarith
  have hP0 : (0:ℚ) ≤ 220 * A * H * C := by linarith
  have key : 220 * A * H * C * f + 220 * A * H * C * (27/100) ≤ 220 * A * H * C * g := by
    nlinarith [mul_le_mul_of_nonneg_left hfg hP0]
  have key2 : (1:ℚ) ≤ 220 * A * H * C * (27/100) := by linarith
  linarith

/-- C5: for any fixed valid age, horsepower and city, the annual premium
is strictly increasing across the coverage tiers: basic below partial
below full. -/
theorem claim5_premium_monotone (age hp : ℚ) (city : Str)
    (hage : 0 ≤ age) (hhp : 0 < hp) :
    ∃ q1 q2 q3,
      calculate_premium (.fin age) (.fin hp) (some city) (some osnovnoS) = .ok q1 ∧
      calculate_premium (.fin age) (.fin hp) (some city) (some delniS) = .ok q2 ∧
      calculate_premium (.fin age) (.fin hp) (some city) (some polniS) = .ok q3 ∧
      q1.annual_eur < q2.annual_eur ∧ q2.annual_eur < q3.annual_eur := by
  have hna : ¬ (age < 0) := not_lt.mpr hage
  have hnh : ¬ (hp ≤ 0) := not_le.mpr hhp
  have hcf1 : coverageFactorOf osnovnoS = 1 := by
    unfold coverageFactorOf; rw [if_pos rfl]
  have hcf2 : coverageFactorOf delniS = 128/100 := by
    unfold coverageFactorOf; rw [if_neg (by decide), if_pos rfl]
  have hcf3 : coverageFactorOf polniS = 155/100 := by
    unfold coverageFactorOf; rw [if_neg (by decide), if_neg (by decide), if_pos rfl]
  simp only [calculate_premium, JSNum.finQ?, jsOrEmpty]
  rw [if_neg hna, if_neg hna, if_neg hna, if_neg hnh, if_neg hnh, if_neg hnh]
  rw [if_neg (by decide : ¬ (osnovnoS.isEmpty = true)),
      if_neg (by decide : ¬ (delniS.isEmpty = true)),
      if_neg (by decide : ¬ (polniS.isEmpty = true))]
  rw [hcf1, hcf2, hcf3]
  refine ⟨_, _, _, rfl, rfl, rfl, ?_, ?_⟩
  · exact annual_tier_lt (le_max_left _ _) (le_max_left _ _)
      (cityFactorOf_ge_one _) (by norm_num)
  · exact annual_tier_lt (le_max_left _ _) (le_max_left _ _)
      (cityFactorOf_ge_one _) (by norm_num)

/-- Witness for claim5_premium_monotone at age 5, 150 horsepower,
Ljubljana. -/
theorem claim5_premium_monotone_witness :
    (0:ℚ) ≤ 5 ∧ (0:ℚ) < 150 ∧
    (∃ q1 q2 q3,
      calculate_premium (.fin 5) (.fin 150) (some ( "Ljubljana".toList)) (some osnovnoS) = .ok q1 ∧
      calculate_premium (.fin 5) (.fin 150) (some ( "Ljubljana".toList)) (some delniS) = .ok q2 ∧
      calculate_premium (.fin 5) (.fin 150) (some ( "Ljubljana".toList)) (some polniS) = .ok q3 ∧
      q1.annual_eur < q2.annual_eur ∧ q2.annual_eur < q3.annual_eur) :=
  ⟨by norm_num, by norm_num,
   claim5_premium_monotone 5 150 ( "Ljubljana".toList) (by norm_num) (by norm_num)⟩

/-- C6: the premium calculator fails exactly when the age is non-finite
or negative, or the horsepower is non-finite or non-positive, or the
coverage tier is unset (null or empty); on every other input it returns a
quote. -/
theorem claim6_validation (va hp : JSNum) (city cov : Option Str) :
    (∃ e, calculate_premium va hp city cov = .error e) ↔
      (va.finQ? = none ∨ (∃ q, va.finQ? = some q ∧ q < 0) ∨
       hp.finQ? = none ∨ (∃ q, hp.finQ? = some q ∧ q ≤ 0) ∨
       (jsOrEmpty cov).isEmpty = true) := by
  unfold calculate_premium
  cases va <;> cases hp <;>
    simp only [JSNum.finQ?] <;>
    first
      | (split_ifs <;> simp_all)
      | simp_all

/-- C3: for every integer below 100, parsing its canonical Slovenian word
form (including the concatenated ones-in-tens compounds) returns exactly
that integer; and every documented spelling variant of the word tables
parses to its table value. -/
theorem claim3_roundtrip :
    (∀ n : Nat, n < 100 → parseSlNumberRobust (slCanonical n) = some n) ∧
    (∀ p ∈ slVariantPairs, parseSlNumberRobust p.1 = some p.2) := by
  constructor
  · decide
  · decide

/-- Witness for claim3_roundtrip at the compound twenty-one. -/
theorem claim3_roundtrip_witness :
    slCanonical 21 = "enaindvajset".toList ∧
    parseSlNumberRobust ( "enaindvajset".toList) = some 21 := by
  refine ⟨by decide, ?_⟩
  have h := claim3_roundtrip.1 21 (by decide)
  simpa [(by decide : slCanonical 21 = "enaindvajset".toList)] using h

end AgentCore
